import Mathlib

/-!
# Verification of the reactive printer-scheduling cell (`cell.py`)

Shallow embedding of the blackboard store, notification bus and printer
scheduler from `cell.py`, together with proofs about the external actions
(`user_adds_job`, `user_requests_print`, `printer_heartbeat`, object
removals) each followed by draining the notification bus to its fixed
point.

Modelling conventions:
* SQLAlchemy tables become lists kept in insertion (rowid) order; the
  autoincrement primary keys become explicit `next_*_id` counters
  (SQLite autoincrement starts at 1).
* `session.query(...).first()` without `order_by` returns the first row
  in insertion order (`List.find?`); `.order_by(position.asc()).first()`
  returns the row with the least `position`, first-inserted among ties.
* ORM relationship traversal (`pr.print_queue_entry`,
  `pqe.print_request`, the `Printer.print_request == None` filter) is
  modelled as an id-based lookup against the current store, which is
  what the lazy relationship load performs on a live session object.
* `copy.deepcopy` of the notified object is the identity on immutable
  Lean values, so a notification simply carries the record value as the
  snapshot, isolated from later store mutations.
* `duration_s`/`time_elapsed_s` floats and the `Print` table are never
  read by the scheduler or by any claim and are omitted.
-/

namespace Cell

/-- Embeds `class PrinterStatus(enum.Enum)` from `cell.py`. -/
inductive PrinterStatus where
  | IDLE
  | PRINTING
  | PRINT_SUCCEEDED
  | PRINT_FAILED
deriving DecidableEq, Repr

/-- Embeds `class ChangeEvent(enum.Enum)` from `cell.py`. -/
inductive ChangeEvent where
  | ADDED_OBJECT
  | REMOVED_OBJECT
  | UPDATED_OBJECT
deriving DecidableEq, Repr

/-- Row of the `jobs` table: `id`, `name`, `resin_code`
(`duration_s` is never read by the scheduler and is omitted). -/
structure Job where
  id : Nat
  name : String
  resin_code : String
deriving DecidableEq, Repr

/-- Row of the `printers` table: string primary key `id`, `status`,
`current_resin`. -/
structure Printer where
  id : String
  status : PrinterStatus
  current_resin : String
deriving DecidableEq, Repr

/-- Row of the `print_queue_entries` table. -/
structure PrintQueueEntry where
  id : Nat
  job_id : Nat
  position : Int
  resin_code : String
deriving DecidableEq, Repr

/-- Row of the `print_requests` table.  `printer_id` is declared
`Integer` in the source but holds the printers' string primary keys
(SQLite is dynamically typed), so it is a `String` here. -/
structure PrintRequest where
  id : Nat
  print_queue_entry_id : Nat
  printer_id : String
deriving DecidableEq, Repr

/-- The snapshot payload of a notification: the deep-copied object that
was added/removed/updated. -/
inductive NotifData where
  | jobD (j : Job)
  | printerD (p : Printer)
  | pqeD (q : PrintQueueEntry)
  | prD (r : PrintRequest)
deriving DecidableEq, Repr

/-- Embeds `o.__class__.__name__` as the namespace key used by
`Blackboard.notify_ns`. -/
def className : NotifData → String
  | .jobD _ => "Job"
  | .printerD _ => "Printer"
  | .pqeD _ => "PrintQueueEntry"
  | .prD _ => "PrintRequest"

/-- One stored notification `(ns_name, event, deepcopy(data))`. -/
structure Rec where
  ns : String
  event : ChangeEvent
  data : NotifData
deriving DecidableEq, Repr

/-- The SQLAlchemy-backed persistent state: one list per table, in
insertion order, plus the autoincrement counters. -/
structure Store where
  jobs : List Job
  printers : List Printer
  print_queue_entries : List PrintQueueEntry
  print_requests : List PrintRequest
  next_job_id : Nat
  next_pqe_id : Nat
  next_pr_id : Nat
deriving DecidableEq, Repr

/-- Embeds `session.query(Job).filter_by(id=job_id).first()`. -/
def findJobById (s : Store) (jid : Nat) : Option Job :=
  s.jobs.find? (fun j => j.id == jid)

/-- Embeds `session.query(Printer).filter_by(id=serial).first()`. -/
def findPrinterById (s : Store) (pid : String) : Option Printer :=
  s.printers.find? (fun p => p.id == pid)

/-- Lookup of a `PrintQueueEntry` row by primary key (the lazy load
performed by `pr.print_queue_entry`). -/
def findPqeById (s : Store) (qid : Nat) : Option PrintQueueEntry :=
  s.print_queue_entries.find? (fun q => q.id == qid)

/-- Embeds `session.query(PrintRequest).filter_by(printer_id=...).first()`. -/
def findPrByPrinterId (s : Store) (pid : String) : Option PrintRequest :=
  s.print_requests.find? (fun r => r.printer_id == pid)

/-- The `PrintQueueEntry.print_request` relationship / the
`PrintRequest.print_queue_entry_id == ...` filter: first print request
referencing the given queue entry. -/
def findPrByPqeId (s : Store) (qid : Nat) : Option PrintRequest :=
  s.print_requests.find? (fun r => r.print_queue_entry_id == qid)

/-- Embeds `.order_by(PrintQueueEntry.position.asc()).first()`: the row with
the least `position` among the given rows, the first-inserted one among
ties. -/
def firstByPosAsc (l : List PrintQueueEntry) : Option PrintQueueEntry :=
  l.foldl (fun acc q =>
    match acc with
    | none => some q
    | some m => if q.position < m.position then some q else acc) none

/-- Embeds `Blackboard.add_object` on a freshly constructed `PrintRequest`:
insert the row (autoincrement id) and emit the `ADDED_OBJECT`
notification for the `PrintRequest` namespace. -/
def addPR (qid : Nat) (pid : String) (s : Store) : Store × List Rec :=
  let pr : PrintRequest := ⟨s.next_pr_id, qid, pid⟩
  ({ s with print_requests := s.print_requests ++ [pr],
            next_pr_id := s.next_pr_id + 1 },
   [⟨"PrintRequest", .ADDED_OBJECT, .prD pr⟩])

/-- Embeds `Blackboard.remove_object` on a `PrintRequest`: delete the row (by
primary key) and emit the `REMOVED_OBJECT` notification. -/
def removePR (pr : PrintRequest) (s : Store) : Store × List Rec :=
  ({ s with print_requests := s.print_requests.eraseP (fun r => r.id == pr.id) },
   [⟨"PrintRequest", .REMOVED_OBJECT, .prD pr⟩])

/-- Embeds `PrinterScheduler.assign_pqe_to_printer`: if the printer is IDLE,
find the unassigned queue entry with matching resin and lowest
`position` and create a `PrintRequest` for it. -/
def assign_pqe_to_printer (printer : Printer) (s : Store) : Store × List Rec :=
  if printer.status == .IDLE then
    match firstByPosAsc (s.print_queue_entries.filter
            (fun q => (findPrByPqeId s q.id).isNone && q.resin_code == printer.current_resin)) with
    | some pqe => addPR pqe.id printer.id s
    | none => (s, [])
  else (s, [])

/-- Embeds `PrinterScheduler.assign_printer_to_pqe`: find the first IDLE
printer with matching resin and no `PrintRequest`, and create a
`PrintRequest` binding it to the given queue entry.  (Note: no check
that the queue entry itself is unassigned.) -/
def assign_printer_to_pqe (pqe : PrintQueueEntry) (s : Store) : Store × List Rec :=
  match s.printers.find? (fun p =>
      p.current_resin == pqe.resin_code && p.status == PrinterStatus.IDLE
        && (findPrByPrinterId s p.id).isNone) with
  | some printer => addPR pqe.id printer.id s
  | none => (s, [])

/-- Embeds `PrinterScheduler.handle_printer_add`. -/
def handle_printer_add (printer : Printer) (s : Store) : Store × List Rec :=
  match findPrByPrinterId s printer.id with
  | some _ => (s, [])
  | none => assign_pqe_to_printer printer s

/-- Embeds `PrinterScheduler.handle_printer_update`.  The dangling case where
`pr.print_queue_entry` does not resolve would raise `AttributeError` in
the source; it is unreachable from the initial state (referential
integrity is part of the proved invariant) and is modelled as a no-op. -/
def handle_printer_update (printer : Printer) (s : Store) : Store × List Rec :=
  match findPrByPrinterId s printer.id with
  | some pr =>
    match findPqeById s pr.print_queue_entry_id with
    | some pqe =>
      if pqe.resin_code != printer.current_resin then
        let r1 := removePR pr s
        let r2 := assign_pqe_to_printer printer r1.1
        (r2.1, r1.2 ++ r2.2)
      else (s, [])
    | none => (s, [])
  | none => assign_pqe_to_printer printer s

/-- Embeds `PrinterScheduler.handle_printer_removal`.  As above, the dangling
`pr.print_queue_entry` case is unreachable and modelled as removing the
print request only. -/
def handle_printer_removal (printer : Printer) (s : Store) : Store × List Rec :=
  match findPrByPrinterId s printer.id with
  | some pr =>
    match findPqeById s pr.print_queue_entry_id with
    | some pqe =>
      let r1 := removePR pr s
      let r2 := assign_printer_to_pqe pqe r1.1
      (r2.1, r1.2 ++ r2.2)
    | none => removePR pr s
  | none => (s, [])

/-- Embeds `PrinterScheduler.handle_pqe_add`. -/
def handle_pqe_add (pqe : PrintQueueEntry) (s : Store) : Store × List Rec :=
  assign_printer_to_pqe pqe s

/-- Embeds `PrinterScheduler.handle_pqe_removal` (`pqe.print_request` is the
id-based lookup against the current store). -/
def handle_pqe_removal (pqe : PrintQueueEntry) (s : Store) : Store × List Rec :=
  match findPrByPqeId s pqe.id with
  | some pr => removePR pr s
  | none => (s, [])

/-- Embeds `PrinterScheduler.handle_pqe_update`. -/
def handle_pqe_update (pqe : PrintQueueEntry) (s : Store) : Store × List Rec :=
  match findPrByPqeId s pqe.id with
  | some pr =>
    let r1 := removePR pr s
    let r2 := assign_printer_to_pqe pqe r1.1
    (r2.1, r1.2 ++ r2.2)
  | none => assign_printer_to_pqe pqe s

/-- Embeds `PrinterScheduler.on_printer_callback`: dispatch on the change
event.  A payload that is not a `Printer` cannot be delivered to this
namespace and is ignored. -/
def on_printer_callback (evt : ChangeEvent) (data : NotifData) (s : Store) : Store × List Rec :=
  match data with
  | .printerD printer =>
    match evt with
    | .REMOVED_OBJECT => handle_printer_removal printer s
    | .UPDATED_OBJECT => handle_printer_update printer s
    | .ADDED_OBJECT => handle_printer_add printer s
  | _ => (s, [])

/-- Embeds `PrinterScheduler.on_pqe_callback`. -/
def on_pqe_callback (evt : ChangeEvent) (data : NotifData) (s : Store) : Store × List Rec :=
  match data with
  | .pqeD pqe =>
    match evt with
    | .REMOVED_OBJECT => handle_pqe_removal pqe s
    | .UPDATED_OBJECT => handle_pqe_update pqe s
    | .ADDED_OBJECT => handle_pqe_add pqe s
  | _ => (s, [])

/-! ## The notification bus (`Blackboard.flush_notifications`) -/

/-- A subscriber callback `f(ns_name, event, data)`; it may mutate the
store (its `σ` component) and enqueue further notifications, which it
returns. -/
abbrev Callback (σ : Type) := Rec → σ → σ × List Rec

/-- The bus state seen by `flush_notifications`: the subscriber-visible
state `user` (the store) and the pending notification list. -/
structure BusState (σ : Type) where
  user : σ
  pending : List Rec

/-- Embeds the `self.callbacks[ns_name]` lookup (`if ns_name in self.callbacks`). -/
def lookupNs (cbs : List (String × List (Callback σ))) (ns : String) :
    Option (List (Callback σ)) :=
  (cbs.find? (fun kv => kv.1 == ns)).map (fun kv => kv.2)

/-- Delivery of one stored notification: invoke every callback
registered for its namespace; records they enqueue are appended to the
live pending list; the record itself is appended to the delivered log. -/
def deliverRec (cbs : List (String × List (Callback σ)))
    (acc : BusState σ × List Rec) (r : Rec) : BusState σ × List Rec :=
  let st :=
    match lookupNs cbs r.ns with
    | some fs => fs.foldl (fun st f =>
        let x := f r st.user
        ⟨x.1, st.pending ++ x.2⟩) acc.1
    | none => acc.1
  (st, acc.2 ++ [r])

/-- Embeds `Blackboard.flush_notifications`: grab the stored notifications,
reset the pending list, then deliver the grabbed batch in FIFO order.
Returns the new bus state and the list of records delivered. -/
def flush_notifications (cbs : List (String × List (Callback σ)))
    (st : BusState σ) : BusState σ × List Rec :=
  st.pending.foldl (deliverRec cbs) (⟨st.user, []⟩, [])

/-! ## The scheduler subscriptions and the system-level flush

`PrinterScheduler.__init__` registers one callback on the `"Printer"`
namespace and one on the `"PrintQueueEntry"` namespace (the only
subscriptions in the cell). -/

/-- The `Blackboard.callbacks` table after `PrinterScheduler.__init__`
has subscribed. -/
def schedulerCallbacks : List (String × List (Callback Store)) :=
  [("Printer", [fun r s => on_printer_callback r.event r.data s]),
   ("PrintQueueEntry", [fun r s => on_pqe_callback r.event r.data s])]

/-- The externally visible blackboard state: the store plus the pending
notification list. -/
structure BB where
  store : Store
  notifications : List Rec
deriving DecidableEq, Repr

/-- One system-level `flush_notifications` call with the scheduler
subscribed. -/
def flush (bb : BB) : BB :=
  let r := flush_notifications schedulerCallbacks ⟨bb.store, bb.notifications⟩
  ⟨r.1.user, r.1.pending⟩

/-- The driving loop: call `flush()` repeatedly until the pending list
is empty (the convergence loop).  The fuel bound is immaterial: two
flushes always reach the empty pending list (proved below). -/
def drainLoop : Nat → BB → BB
  | 0, bb => bb
  | n + 1, bb => if bb.notifications = [] then bb else drainLoop n (flush bb)

/-! ## External actions on the blackboard -/

/-- Embeds `Blackboard.user_adds_job`: insert the job (autoincrement id) and
emit its `ADDED_OBJECT` notification. -/
def user_adds_job (name resin_code : String) (bb : BB) : BB :=
  let j : Job := ⟨bb.store.next_job_id, name, resin_code⟩
  ⟨{ bb.store with jobs := bb.store.jobs ++ [j],
                   next_job_id := bb.store.next_job_id + 1 },
   bb.notifications ++ [⟨"Job", .ADDED_OBJECT, .jobD j⟩]⟩

/-- Embeds the `last_pos` computation in `Blackboard.user_requests_print`:
fold over all queue entries starting from `0`, keeping the largest
`position` seen. -/
def lastPos (s : Store) : Int :=
  s.print_queue_entries.foldl (fun lp q => if q.position > lp then q.position else lp) 0

/-- Embeds `Blackboard.user_requests_print`.  The whole body runs inside a
`try`/bare-`except` that logs and swallows any error, so the method
always returns normally; the `Bool` records whether an exception was
raised and caught (`True` exactly when the job id is unknown, the only
failing path).  Each created entry is added via
`add_object(pqe, session=session)`, emitting its notification
immediately. -/
def user_requests_print (job_id : Nat) (n : Nat) (bb : BB) : BB × Bool :=
  match findJobById bb.store job_id with
  | none => (bb, true)
  | some job =>
    let lp := lastPos bb.store
    ((List.range n).foldl (fun acc (i : Nat) =>
        let q : PrintQueueEntry := ⟨acc.store.next_pqe_id, job_id, lp + i, job.resin_code⟩
        ⟨{ acc.store with print_queue_entries := acc.store.print_queue_entries ++ [q],
                          next_pqe_id := acc.store.next_pqe_id + 1 },
         acc.notifications ++ [⟨"PrintQueueEntry", .ADDED_OBJECT, .pqeD q⟩]⟩) bb,
     false)

/-- Embeds `Blackboard.printer_heartbeat`: create the printer if unseen,
otherwise update status/resin only when changed (a no-op heartbeat
emits no notification). -/
def printer_heartbeat (serial : String) (status : PrinterStatus)
    (current_resin : String) (bb : BB) : BB :=
  match findPrinterById bb.store serial with
  | none =>
    let p : Printer := ⟨serial, status, current_resin⟩
    ⟨{ bb.store with printers := bb.store.printers ++ [p] },
     bb.notifications ++ [⟨"Printer", .ADDED_OBJECT, .printerD p⟩]⟩
  | some p =>
    if p.status ≠ status ∨ p.current_resin ≠ current_resin then
      let p' : Printer := ⟨p.id, status, current_resin⟩
      ⟨{ bb.store with printers :=
            bb.store.printers.map (fun q => if q.id == serial then p' else q) },
       bb.notifications ++ [⟨"Printer", .UPDATED_OBJECT, .printerD p'⟩]⟩
    else bb

/-- Embeds `Blackboard.remove_object` applied to an existing printer (the
removal action of the spec); a no-op when no such printer exists. -/
def remove_printer (serial : String) (bb : BB) : BB :=
  match findPrinterById bb.store serial with
  | some p =>
    ⟨{ bb.store with printers := bb.store.printers.eraseP (fun q => q.id == serial) },
     bb.notifications ++ [⟨"Printer", .REMOVED_OBJECT, .printerD p⟩]⟩
  | none => bb

/-- Embeds `Blackboard.remove_object` applied to an existing queue entry. -/
def remove_pqe (qid : Nat) (bb : BB) : BB :=
  match findPqeById bb.store qid with
  | some q =>
    ⟨{ bb.store with print_queue_entries :=
          bb.store.print_queue_entries.eraseP (fun x => x.id == qid) },
     bb.notifications ++ [⟨"PrintQueueEntry", .REMOVED_OBJECT, .pqeD q⟩]⟩
  | none => bb

/-- The external actions that drive the cell. -/
inductive Action where
  | addJob (name resin_code : String)
  | requestPrint (job_id : Nat) (n : Nat)
  | heartbeat (serial : String) (status : PrinterStatus) (current_resin : String)
  | removePrinter (serial : String)
  | removePqe (qid : Nat)
deriving DecidableEq, Repr

/-- Commit of one external action (notifications still pending). -/
def applyAction : Action → BB → BB
  | .addJob name rc, bb => user_adds_job name rc bb
  | .requestPrint jid n, bb => (user_requests_print jid n bb).1
  | .heartbeat serial st resin, bb => printer_heartbeat serial st resin bb
  | .removePrinter serial, bb => remove_printer serial bb
  | .removePqe qid, bb => remove_pqe qid bb

/-- One external action followed by draining the notification bus to
its fixed point. -/
def step (a : Action) (bb : BB) : BB :=
  drainLoop 4 (applyAction a bb)

/-- The empty cell: empty tables, autoincrement counters at 1. -/
def init : BB := ⟨⟨[], [], [], [], 1, 1, 1⟩, []⟩

/-- Run a sequence of external actions, each followed by a full drain. -/
def run (acts : List Action) : BB :=
  acts.foldl (fun bb a => step a bb) init

/-- A state is reachable when some sequence of external actions (each
followed by its drain) produces it. -/
def Reachable (bb : BB) : Prop := ∃ acts, run acts = bb

/-! ## Caller-initiated transactions (`with Session.begin() as session:`)

A transaction body is a straight-line sequence of primitive steps: each
`Blackboard.add_object(o, session=session)` adds the row to the open
session and *immediately* appends the notification to
`self.notifications` (which is not session-scoped), and a `raise` aborts
the body.  On normal return `Session.begin()` commits the session's
rows; on an exception it rolls them back — but the notifications
appended so far are untouched by the rollback. -/

/-- One primitive step of a transaction body. -/
inductive TxOp where
  | add_op (o : NotifData)
  | raise_op
deriving DecidableEq, Repr

/-- Embeds `session.add(o); session.flush()` for each object kind. -/
def storeAdd (o : NotifData) (s : Store) : Store :=
  match o with
  | .jobD j => { s with jobs := s.jobs ++ [j] }
  | .printerD p => { s with printers := s.printers ++ [p] }
  | .pqeD q => { s with print_queue_entries := s.print_queue_entries ++ [q] }
  | .prD r => { s with print_requests := s.print_requests ++ [r] }

/-- The notifications a body emits before its first `raise` (all its
emissions when it never raises). -/
def txEmits (ops : List TxOp) : List Rec :=
  (ops.takeWhile (fun op => match op with | .add_op _ => true | .raise_op => false)).filterMap
    (fun op => match op with
      | .add_op o => some ⟨className o, .ADDED_OBJECT, o⟩
      | .raise_op => none)

/-- Embeds `with Session.begin() as session:` around a transaction body.  The
returned `Bool` is `true` when the body raised (the session was rolled
back and the exception propagates to the caller). -/
def withTransaction (ops : List TxOp) (bb : BB) : BB × Bool :=
  let r := ops.foldl (fun (acc : Store × List Rec × Bool) op =>
      match acc with
      | (s, recs, true) => (s, recs, true)
      | (s, recs, false) =>
        match op with
        | .add_op o => (storeAdd o s, recs ++ [⟨className o, .ADDED_OBJECT, o⟩], false)
        | .raise_op => (s, recs, true)) (bb.store, [], false)
  match r with
  | (s, recs, false) => (⟨s, bb.notifications ++ recs⟩, false)
  | (_, recs, true) => (⟨bb.store, bb.notifications ++ recs⟩, true)

/-! ## The `PrinterScheduler` constructor (`__init__`)

After registering its two subscriptions the constructor runs a catch-up
loop `for pqe in session.query(PrintQueueEntry).all():
self.handle_print_queue_entry(pqe)`.  Python resolves the method name
dynamically, so the loop body is modelled as a lookup of the name
`"handle_print_queue_entry"` in the method table of the class, raising
`AttributeError` when absent. -/

/-- The methods `class PrinterScheduler` defines (besides `__init__`). -/
def printerSchedulerMethods : List String :=
  ["assign_pqe_to_printer", "assign_printer_to_pqe",
   "on_printer_callback", "handle_printer_removal",
   "handle_printer_update", "handle_printer_add",
   "on_pqe_callback", "handle_pqe_removal",
   "handle_pqe_update", "handle_pqe_add"]

/-- Embeds `PrinterScheduler.__init__` after the two `subscribe_ns` calls: the
catch-up loop over all stored queue entries; each iteration looks up
`handle_print_queue_entry` on the instance and raises `AttributeError`
when the class does not define it. -/
def printerSchedulerInit (s : Store) : Except String Unit :=
  s.print_queue_entries.foldl (fun acc _pqe =>
    acc.bind (fun _ =>
      if "handle_print_queue_entry" ∈ printerSchedulerMethods then Except.ok ()
      else Except.error "AttributeError: object has no attribute handle_print_queue_entry"))
    (Except.ok ())

/-! ## Invariants and proof-level views of the mechanisms -/

/-- Material match: every print request binds a printer whose loaded
resin equals the queue entry's resin code. -/
def materialOK (s : Store) : Prop :=
  ∀ r ∈ s.print_requests, ∀ p ∈ s.printers, p.id = r.printer_id →
    ∀ q ∈ s.print_queue_entries, q.id = r.print_queue_entry_id →
      p.current_resin = q.resin_code

/-- Structural well-formedness of the store: distinct primary keys,
autoincrement counters above every used id, at most one print request
per printer and per queue entry, and referential integrity of print
requests. -/
structure StoreWF (s : Store) : Prop where
  printers_nodup : (s.printers.map Printer.id).Nodup
  pqes_nodup : (s.print_queue_entries.map PrintQueueEntry.id).Nodup
  pqe_id_lt : ∀ q ∈ s.print_queue_entries, q.id < s.next_pqe_id
  pr_ids_nodup : (s.print_requests.map PrintRequest.id).Nodup
  pr_id_lt : ∀ r ∈ s.print_requests, r.id < s.next_pr_id
  pr_printer_nodup : (s.print_requests.map PrintRequest.printer_id).Nodup
  pr_pqe_nodup : (s.print_requests.map PrintRequest.print_queue_entry_id).Nodup
  pr_printer_ref : ∀ r ∈ s.print_requests, ∃ p ∈ s.printers, p.id = r.printer_id
  pr_pqe_ref : ∀ r ∈ s.print_requests, ∃ q ∈ s.print_queue_entries, q.id = r.print_queue_entry_id

/-- The full store invariant. -/
def StoreInv (s : Store) : Prop := StoreWF s ∧ materialOK s

/-- Material match for every print request except those bound to the
given printer id — the mid-drain situation right after a heartbeat has
rewritten that printer's loaded resin. -/
def materialExceptPrinter (s : Store) (pid : String) : Prop :=
  ∀ r ∈ s.print_requests, r.printer_id ≠ pid →
    ∀ p ∈ s.printers, p.id = r.printer_id →
      ∀ q ∈ s.print_queue_entries, q.id = r.print_queue_entry_id →
        p.current_resin = q.resin_code

/-- The invariant at converged (post-drain) states: the store invariant
plus an empty pending list. -/
def Inv (bb : BB) : Prop := StoreInv bb.store ∧ bb.notifications = []

/-- The effect of delivering one stored notification with the scheduler
subscribed, unfolded from `flush_notifications schedulerCallbacks`. -/
def deliverOne (s : Store) (r : Rec) : Store × List Rec :=
  if r.ns = "Printer" then on_printer_callback r.event r.data s
  else if r.ns = "PrintQueueEntry" then on_pqe_callback r.event r.data s
  else (s, [])

/-- Sequential delivery of a batch of stored notifications, returning
the final store and the concatenated emissions (the unfolded form of
one `flush` with the scheduler subscribed; proved equal below). -/
def deliverList (s : Store) (recs : List Rec) : Store × List Rec :=
  recs.foldl (fun acc r => ((deliverOne acc.1 r).1, acc.2 ++ (deliverOne acc.1 r).2)) (s, [])

/-- The queue entries a successful `user_requests_print` creates:
`copies` rows whose positions start *at* (not after) the current
largest position. -/
def requestPrintEntries (s : Store) (jid : Nat) (rc : String) (n : Nat) :
    List PrintQueueEntry :=
  (List.range n).map (fun i => ⟨s.next_pqe_id + i, jid, lastPos s + (i : Int), rc⟩)

/-! ## Query bridging lemmas -/

theorem findPrByPrinterId_eq_none {s : Store} {pid : String} :
    findPrByPrinterId s pid = none ↔ ∀ r ∈ s.print_requests, r.printer_id ≠ pid := by
  simp [findPrByPrinterId, List.find?_eq_none]

theorem findPrByPrinterId_eq_some {s : Store} {pid : String} {r : PrintRequest}
    (h : findPrByPrinterId s pid = some r) :
    r ∈ s.print_requests ∧ r.printer_id = pid := by
  refine ⟨List.mem_of_find?_eq_some h, ?_⟩
  have := List.find?_some h
  simpa using this

theorem findPrByPqeId_eq_none {s : Store} {qid : Nat} :
    findPrByPqeId s qid = none ↔ ∀ r ∈ s.print_requests, r.print_queue_entry_id ≠ qid := by
  simp [findPrByPqeId, List.find?_eq_none]

theorem findPrByPqeId_eq_some {s : Store} {qid : Nat} {r : PrintRequest}
    (h : findPrByPqeId s qid = some r) :
    r ∈ s.print_requests ∧ r.print_queue_entry_id = qid := by
  refine ⟨List.mem_of_find?_eq_some h, ?_⟩
  have := List.find?_some h
  simpa using this

theorem findPrinterById_eq_none {s : Store} {pid : String} :
    findPrinterById s pid = none ↔ ∀ p ∈ s.printers, p.id ≠ pid := by
  simp [findPrinterById, List.find?_eq_none]

theorem findPrinterById_eq_some {s : Store} {pid : String} {p : Printer}
    (h : findPrinterById s pid = some p) :
    p ∈ s.printers ∧ p.id = pid := by
  refine ⟨List.mem_of_find?_eq_some h, ?_⟩
  have := List.find?_some h
  simpa using this

theorem findPqeById_eq_none {s : Store} {qid : Nat} :
    findPqeById s qid = none ↔ ∀ q ∈ s.print_queue_entries, q.id ≠ qid := by
  simp [findPqeById, List.find?_eq_none]

theorem findPqeById_eq_some {s : Store} {qid : Nat} {q : PrintQueueEntry}
    (h : findPqeById s qid = some q) :
    q ∈ s.print_queue_entries ∧ q.id = qid := by
  refine ⟨List.mem_of_find?_eq_some h, ?_⟩
  have := List.find?_some h
  simpa using this

theorem findJobById_eq_some {s : Store} {jid : Nat} {j : Job}
    (h : findJobById s jid = some j) :
    j ∈ s.jobs ∧ j.id = jid := by
  refine ⟨List.mem_of_find?_eq_some h, ?_⟩
  have := List.find?_some h
  simpa using this

/-! ## The flush mechanism, unfolded -/

theorem deliverList_acc (recs : List Rec) :
    ∀ (s : Store) (e0 : List Rec),
      recs.foldl (fun acc r => ((deliverOne acc.1 r).1, acc.2 ++ (deliverOne acc.1 r).2)) (s, e0)
        = ((deliverList s recs).1, e0 ++ (deliverList s recs).2) := by
  induction recs with
  | nil => intro s e0; simp [deliverList]
  | cons r rest ih =>
    intro s e0
    have hd : deliverList s (r :: rest)
        = ((deliverList (deliverOne s r).1 rest).1,
           (deliverOne s r).2 ++ (deliverList (deliverOne s r).1 rest).2) := by
      show (r :: rest).foldl _ (s, []) = _
      rw [List.foldl_cons]
      simpa using ih (deliverOne s r).1 (deliverOne s r).2
    rw [List.foldl_cons, hd]
    simpa [List.append_assoc] using ih (deliverOne s r).1 (e0 ++ (deliverOne s r).2)

theorem deliverList_cons (s : Store) (r : Rec) (recs : List Rec) :
    deliverList s (r :: recs)
      = ((deliverList (deliverOne s r).1 recs).1,
         (deliverOne s r).2 ++ (deliverList (deliverOne s r).1 recs).2) := by
  show (r :: recs).foldl _ (s, []) = _
  rw [List.foldl_cons]
  simpa using deliverList_acc recs (deliverOne s r).1 (deliverOne s r).2

theorem deliverRec_scheduler (acc : BusState Store × List Rec) (r : Rec) :
    deliverRec schedulerCallbacks acc r =
      (⟨(deliverOne acc.1.user r).1, acc.1.pending ++ (deliverOne acc.1.user r).2⟩,
       acc.2 ++ [r]) := by
  rcases acc with ⟨⟨u, pend⟩, log⟩
  by_cases h1 : r.ns = "Printer"
  · simp [deliverRec, lookupNs, schedulerCallbacks, List.find?, h1, deliverOne]
  · by_cases h2 : r.ns = "PrintQueueEntry"
    · simp [deliverRec, lookupNs, schedulerCallbacks, List.find?, h1, h2, deliverOne]
    · have e1 : ("Printer" == r.ns) = false := by
        simp [BEq.beq]; exact fun h => h1 h.symm
      have e2 : ("PrintQueueEntry" == r.ns) = false := by
        simp [BEq.beq]; exact fun h => h2 h.symm
      simp [deliverRec, lookupNs, schedulerCallbacks, List.find?, e1, e2, deliverOne, h1, h2]

theorem flushFold_eq (recs : List Rec) :
    ∀ (u : Store) (pend log : List Rec),
      recs.foldl (deliverRec schedulerCallbacks) (⟨u, pend⟩, log) =
        (⟨(deliverList u recs).1, pend ++ (deliverList u recs).2⟩, log ++ recs) := by
  induction recs with
  | nil => intro u pend log; simp [deliverList]
  | cons r rest ih =>
    intro u pend log
    rw [List.foldl_cons, deliverRec_scheduler]
    dsimp only
    rw [ih, deliverList_cons]
    simp [List.append_assoc]

theorem flush_eq_deliverList (bb : BB) :
    flush bb = ⟨(deliverList bb.store bb.notifications).1,
                (deliverList bb.store bb.notifications).2⟩ := by
  show (let r := flush_notifications schedulerCallbacks ⟨bb.store, bb.notifications⟩
        (⟨r.1.user, r.1.pending⟩ : BB)) = _
  rw [show flush_notifications schedulerCallbacks ⟨bb.store, bb.notifications⟩
        = bb.notifications.foldl (deliverRec schedulerCallbacks) (⟨bb.store, []⟩, []) from rfl]
  rw [flushFold_eq]
  simp

/-! ## Every scheduler emission is in the `PrintRequest` namespace -/

theorem addPR_ns (qid : Nat) (pid : String) (s : Store) :
    ∀ x ∈ (addPR qid pid s).2, x.ns = "PrintRequest" := by
  simp [addPR]

theorem removePR_ns (pr : PrintRequest) (s : Store) :
    ∀ x ∈ (removePR pr s).2, x.ns = "PrintRequest" := by
  simp [removePR]

theorem assign_pqe_to_printer_ns (printer : Printer) (s : Store) :
    ∀ x ∈ (assign_pqe_to_printer printer s).2, x.ns = "PrintRequest" := by
  unfold assign_pqe_to_printer
  split
  · split
    · apply addPR_ns
    · simp
  · simp

theorem assign_printer_to_pqe_ns (pqe : PrintQueueEntry) (s : Store) :
    ∀ x ∈ (assign_printer_to_pqe pqe s).2, x.ns = "PrintRequest" := by
  unfold assign_printer_to_pqe
  split
  · apply addPR_ns
  · simp

theorem handle_printer_add_ns (printer : Printer) (s : Store) :
    ∀ x ∈ (handle_printer_add printer s).2, x.ns = "PrintRequest" := by
  unfold handle_printer_add
  split
  · simp
  · apply assign_pqe_to_printer_ns

theorem handle_printer_update_ns (printer : Printer) (s : Store) :
    ∀ x ∈ (handle_printer_update printer s).2, x.ns = "PrintRequest" := by
  unfold handle_printer_update
  split
  · split
    · split
      · intro x hx
        rcases List.mem_append.1 hx with h | h
        · exact removePR_ns _ _ x h
        · exact assign_pqe_to_printer_ns _ _ x h
      · simp
    · simp
  · apply assign_pqe_to_printer_ns

theorem handle_printer_removal_ns (printer : Printer) (s : Store) :
    ∀ x ∈ (handle_printer_removal printer s).2, x.ns = "PrintRequest" := by
  unfold handle_printer_removal
  split
  · split
    · intro x hx
      rcases List.mem_append.1 hx with h | h
      · exact removePR_ns _ _ x h
      · exact assign_printer_to_pqe_ns _ _ x h
    · apply removePR_ns
  · simp

theorem handle_pqe_add_ns (pqe : PrintQueueEntry) (s : Store) :
    ∀ x ∈ (handle_pqe_add pqe s).2, x.ns = "PrintRequest" :=
  assign_printer_to_pqe_ns pqe s

theorem handle_pqe_removal_ns (pqe : PrintQueueEntry) (s : Store) :
    ∀ x ∈ (handle_pqe_removal pqe s).2, x.ns = "PrintRequest" := by
  unfold handle_pqe_removal
  split
  · apply removePR_ns
  · simp

theorem handle_pqe_update_ns (pqe : PrintQueueEntry) (s : Store) :
    ∀ x ∈ (handle_pqe_update pqe s).2, x.ns = "PrintRequest" := by
  unfold handle_pqe_update
  split
  · intro x hx
    rcases List.mem_append.1 hx with h | h
    · exact removePR_ns _ _ x h
    · exact assign_printer_to_pqe_ns _ _ x h
  · apply assign_printer_to_pqe_ns

theorem on_printer_callback_ns (evt : ChangeEvent) (data : NotifData) (s : Store) :
    ∀ x ∈ (on_printer_callback evt data s).2, x.ns = "PrintRequest" := by
  unfold on_printer_callback
  cases data with
  | printerD p =>
    cases evt with
    | REMOVED_OBJECT => apply handle_printer_removal_ns
    | UPDATED_OBJECT => apply handle_printer_update_ns
    | ADDED_OBJECT => apply handle_printer_add_ns
  | jobD j => simp
  | pqeD q => simp
  | prD r => simp

theorem on_pqe_callback_ns (evt : ChangeEvent) (data : NotifData) (s : Store) :
    ∀ x ∈ (on_pqe_callback evt data s).2, x.ns = "PrintRequest" := by
  unfold on_pqe_callback
  cases data with
  | pqeD q =>
    cases evt with
    | REMOVED_OBJECT => apply handle_pqe_removal_ns
    | UPDATED_OBJECT => apply handle_pqe_update_ns
    | ADDED_OBJECT => apply handle_pqe_add_ns
  | jobD j => simp
  | printerD p => simp
  | prD r => simp

theorem deliverOne_ns (s : Store) (r : Rec) :
    ∀ x ∈ (deliverOne s r).2, x.ns = "PrintRequest" := by
  unfold deliverOne
  split
  · apply on_printer_callback_ns
  · split
    · apply on_pqe_callback_ns
    · simp

theorem deliverList_ns (recs : List Rec) :
    ∀ (s : Store), ∀ x ∈ (deliverList s recs).2, x.ns = "PrintRequest" := by
  induction recs with
  | nil => intro s x hx; simp [deliverList] at hx
  | cons r rest ih =>
    intro s x hx
    rw [deliverList_cons] at hx
    rcases List.mem_append.1 hx with h | h
    · exact deliverOne_ns s r x h
    · exact ih _ x h

theorem deliverOne_other (s : Store) (r : Rec) (h1 : r.ns ≠ "Printer")
    (h2 : r.ns ≠ "PrintQueueEntry") : deliverOne s r = (s, []) := by
  simp [deliverOne, h1, h2]

theorem deliverList_all_pr (recs : List Rec) :
    ∀ (s : Store), (∀ r ∈ recs, r.ns = "PrintRequest") → deliverList s recs = (s, []) := by
  induction recs with
  | nil => intro s _; rfl
  | cons r rest ih =>
    intro s h
    have hr := h r (List.mem_cons_self r rest)
    have h1 : r.ns ≠ "Printer" := by rw [hr]; decide
    have h2 : r.ns ≠ "PrintQueueEntry" := by rw [hr]; decide
    rw [deliverList_cons, deliverOne_other s r h1 h2]
    simpa using ih s (fun x hx => h x (List.mem_cons_of_mem r hx))

theorem drainLoop_nil (n : Nat) (bb : BB) (h : bb.notifications = []) :
    drainLoop n bb = bb := by
  cases n with
  | zero => rfl
  | succ m => simp [drainLoop, h]

/-- Two flushes always drain the bus: the first one delivers the batch
(whose handler emissions are all in the `PrintRequest` namespace), the
second one delivers those to no subscriber, so the driving loop reaches
its fixed point within the fuel bound. -/
theorem drainLoop4_eq (bb : BB) :
    drainLoop 4 bb = ⟨(deliverList bb.store bb.notifications).1, []⟩ := by
  rcases bb with ⟨s, recs⟩
  by_cases h : recs = []
  · subst h
    simp [drainLoop, deliverList]
  · rw [show (4 : Nat) = 3 + 1 from rfl, drainLoop]
    simp only [h, if_false]
    rw [flush_eq_deliverList]
    dsimp only
    by_cases he : (deliverList s recs).2 = []
    · rw [he]
      exact drainLoop_nil 3 _ rfl
    · rw [show (3 : Nat) = 2 + 1 from rfl, drainLoop]
      simp only [he, if_false]
      rw [flush_eq_deliverList]
      dsimp only
      rw [deliverList_all_pr _ _ (deliverList_ns recs s)]
      exact drainLoop_nil 2 _ rfl

theorem step_eq (a : Action) (bb : BB) :
    step a bb = ⟨(deliverList (applyAction a bb).store (applyAction a bb).notifications).1, []⟩ :=
  drainLoop4_eq (applyAction a bb)

/-! ## List helpers -/

theorem nodup_concat {α : Type} {l : List α} {a : α} (h1 : l.Nodup) (h2 : a ∉ l) :
    (l ++ [a]).Nodup := by
  rw [List.nodup_append]
  exact ⟨h1, List.nodup_singleton a, by
    intro x hx hx1
    rw [List.mem_singleton] at hx1
    exact h2 (hx1 ▸ hx)⟩

theorem nodup_key_inj {α κ : Type} {f : α → κ} {l : List α} (d : (l.map f).Nodup)
    {a b : α} (ha : a ∈ l) (hb : b ∈ l) (hf : f a = f b) : a = b :=
  List.inj_on_of_nodup_map d ha hb hf

theorem mem_of_mem_eraseP {α : Type} {l : List α} {p : α → Bool} {a : α}
    (h : a ∈ l.eraseP p) : a ∈ l :=
  (List.eraseP_sublist l).subset h

theorem nodup_map_eraseP {α κ : Type} {f : α → κ} {l : List α} {p : α → Bool}
    (h : (l.map f).Nodup) : ((l.eraseP p).map f).Nodup :=
  List.Nodup.sublist ((List.eraseP_sublist l).map f) h

/-- After erasing by primary key, no surviving row carries the erased
key (given distinct keys). -/
theorem eraseP_beq_ne {α κ : Type} [BEq κ] [LawfulBEq κ] (f : α → κ) (k : κ) :
    ∀ (l : List α), (l.map f).Nodup → ∀ r ∈ l.eraseP (fun x => f x == k), f r ≠ k := by
  intro l
  induction l with
  | nil => intro _ r hr; simp at hr
  | cons a t ih =>
    intro hnd r hr
    rw [List.map_cons, List.nodup_cons] at hnd
    by_cases ha : f a = k
    · rw [List.eraseP_cons, show (f a == k) = true from beq_iff_eq.2 ha] at hr
      simp only [cond_true] at hr
      intro hk
      exact hnd.1 (by
        rw [ha, ← hk]
        exact List.mem_map_of_mem f hr)
    · rw [List.eraseP_cons, show (f a == k) = false from by
        simp [ha]] at hr
      simp only [cond_false] at hr
      rcases List.mem_cons.1 hr with h | h
      · rw [h]; exact ha
      · exact ih hnd.2 r h

/-! ## `firstByPosAsc` (the `ORDER BY position ASC ... first()` query) -/

theorem firstByPosAsc_fold_mem :
    ∀ (l : List PrintQueueEntry) (acc : Option PrintQueueEntry) (m : PrintQueueEntry),
      l.foldl (fun acc q =>
        match acc with
        | none => some q
        | some mm => if q.position < mm.position then some q else acc) acc = some m →
      acc = some m ∨ m ∈ l := by
  intro l
  induction l with
  | nil => intro acc m h; exact Or.inl h
  | cons q t ih =>
    intro acc m h
    rw [List.foldl_cons] at h
    rcases ih _ m h with h1 | h1
    · cases acc with
      | none =>
        simp only [] at h1
        exact Or.inr (List.mem_cons.2 (Or.inl (Option.some.inj h1).symm))
      | some mm =>
        simp only [] at h1
        by_cases hlt : q.position < mm.position
        · rw [if_pos hlt] at h1
          exact Or.inr (List.mem_cons.2 (Or.inl (Option.some.inj h1).symm))
        · rw [if_neg hlt] at h1
          exact Or.inl h1
    · exact Or.inr (List.mem_cons.2 (Or.inr h1))

theorem firstByPosAsc_fold_min :
    ∀ (l : List PrintQueueEntry) (acc : Option PrintQueueEntry) (m : PrintQueueEntry),
      l.foldl (fun acc q =>
        match acc with
        | none => some q
        | some mm => if q.position < mm.position then some q else acc) acc = some m →
      (∀ y ∈ l, m.position ≤ y.position) ∧
      (∀ m0, acc = some m0 → m.position ≤ m0.position) := by
  intro l
  induction l with
  | nil =>
    intro acc m h
    exact ⟨by intro y hy; simp at hy, by
      intro m0 h0
      rw [h0] at h
      rw [Option.some.inj h]⟩
  | cons q t ih =>
    intro acc m h
    rw [List.foldl_cons] at h
    obtain ⟨h1, h2⟩ := ih _ m h
    have hq : m.position ≤ q.position := by
      cases acc with
      | none => exact h2 q rfl
      | some mm =>
        by_cases hlt : q.position < mm.position
        · exact h2 q (by simp only []; rw [if_pos hlt])
        · have := h2 mm (by simp only []; rw [if_neg hlt])
          exact le_trans this (le_of_not_lt hlt)
    refine ⟨?_, ?_⟩
    · intro y hy
      rcases List.mem_cons.1 hy with h | h
      · rw [h]; exact hq
      · exact h1 y h
    · intro m0 h0
      subst h0
      by_cases hlt : q.position < m0.position
      · exact le_trans (h2 q (by simp only []; rw [if_pos hlt])) (le_of_lt hlt)
      · exact h2 m0 (by simp only []; rw [if_neg hlt])

theorem firstByPosAsc_fold_isSome :
    ∀ (t : List PrintQueueEntry) (x : PrintQueueEntry),
      ∃ m, t.foldl (fun acc q =>
        match acc with
        | none => some q
        | some mm => if q.position < mm.position then some q else acc) (some x) = some m := by
  intro t
  induction t with
  | nil => intro x; exact ⟨x, rfl⟩
  | cons q rest ih =>
    intro x
    rw [List.foldl_cons]
    by_cases hlt : q.position < x.position
    · simpa only [if_pos hlt] using ih q
    · simpa only [if_neg hlt] using ih x

/-- The ordered query returns the strict minimum when one exists. -/
theorem firstByPosAsc_eq_of_strict_min {l : List PrintQueueEntry} {A : PrintQueueEntry}
    (hA : A ∈ l) (hmin : ∀ B ∈ l, B ≠ A → A.position < B.position) :
    firstByPosAsc l = some A := by
  obtain ⟨x, t, rfl⟩ : ∃ x t, l = x :: t := by
    cases l with
    | nil => simp at hA
    | cons x t => exact ⟨x, t, rfl⟩
  obtain ⟨m, hm⟩ := firstByPosAsc_fold_isSome t x
  have hfold : firstByPosAsc (x :: t) = some m := by
    show (x :: t).foldl _ none = some m
    rw [List.foldl_cons]
    exact hm
  have hmem : m ∈ x :: t := by
    rcases firstByPosAsc_fold_mem (x :: t) none m hfold with h | h
    · exact absurd h (by simp)
    · exact h
  have hle : m.position ≤ A.position :=
    (firstByPosAsc_fold_min (x :: t) none m hfold).1 A hA
  by_cases hEq : m = A
  · rw [hfold, hEq]
  · exact absurd (hmin m hmem hEq) (not_lt.2 hle)

/-! ## Case analyses of the two assignment searches -/

theorem assign_printer_to_pqe_cases (pqe : PrintQueueEntry) (s : Store) :
    (assign_printer_to_pqe pqe s = (s, [])) ∨
    (∃ p ∈ s.printers, p.status = PrinterStatus.IDLE ∧ p.current_resin = pqe.resin_code ∧
      findPrByPrinterId s p.id = none ∧
      assign_printer_to_pqe pqe s =
        ({ s with print_requests := s.print_requests ++ [⟨s.next_pr_id, pqe.id, p.id⟩],
                  next_pr_id := s.next_pr_id + 1 },
         [⟨"PrintRequest", .ADDED_OBJECT, .prD ⟨s.next_pr_id, pqe.id, p.id⟩⟩])) := by
  unfold assign_printer_to_pqe
  cases hfind : s.printers.find? (fun p =>
      p.current_resin == pqe.resin_code && p.status == PrinterStatus.IDLE
        && (findPrByPrinterId s p.id).isNone) with
  | none => exact Or.inl rfl
  | some p =>
    right
    have hmem := List.mem_of_find?_eq_some hfind
    have hp := List.find?_some hfind
    simp only [Bool.and_eq_true, beq_iff_eq, Option.isNone_iff_eq_none] at hp
    exact ⟨p, hmem, hp.1.2, hp.1.1, hp.2, by simp [addPR]⟩

theorem assign_pqe_to_printer_cases (printer : Printer) (s : Store) :
    (assign_pqe_to_printer printer s = (s, [])) ∨
    (printer.status = PrinterStatus.IDLE ∧ ∃ q ∈ s.print_queue_entries,
      q.resin_code = printer.current_resin ∧ findPrByPqeId s q.id = none ∧
      assign_pqe_to_printer printer s =
        ({ s with print_requests := s.print_requests ++ [⟨s.next_pr_id, q.id, printer.id⟩],
                  next_pr_id := s.next_pr_id + 1 },
         [⟨"PrintRequest", .ADDED_OBJECT, .prD ⟨s.next_pr_id, q.id, printer.id⟩⟩])) := by
  unfold assign_pqe_to_printer
  by_cases hst : (printer.status == PrinterStatus.IDLE) = true
  · rw [if_pos hst]
    cases hfind : firstByPosAsc (s.print_queue_entries.filter
        (fun q => (findPrByPqeId s q.id).isNone && q.resin_code == printer.current_resin)) with
    | none => exact Or.inl rfl
    | some q =>
      right
      have hmem : q ∈ s.print_queue_entries.filter
          (fun q => (findPrByPqeId s q.id).isNone && q.resin_code == printer.current_resin) := by
        rcases firstByPosAsc_fold_mem _ none q hfind with h | h
        · exact absurd h (by simp)
        · exact h
      rw [List.mem_filter] at hmem
      have hq := hmem.2
      simp only [Bool.and_eq_true, beq_iff_eq, Option.isNone_iff_eq_none] at hq
      exact ⟨beq_iff_eq.1 hst, q, hmem.1, hq.2, hq.1, by simp [addPR]⟩
  · rw [if_neg hst]
    exact Or.inl rfl

/-! ## Invariant preservation by the primitive mutations -/

/-- Appending a fresh print request preserves the invariant provided
the bound printer and queue entry exist, neither is already bound, and
their resins agree. -/
theorem StoreInv_append_pr {s : Store} {qid : Nat} {pid : String}
    (hwf : StoreWF s) (hmat : materialOK s)
    (hpno : findPrByPrinterId s pid = none)
    (hqno : findPrByPqeId s qid = none)
    (hpmem : ∃ p ∈ s.printers, p.id = pid)
    (hqmem : ∃ q ∈ s.print_queue_entries, q.id = qid)
    (hres : ∀ p ∈ s.printers, p.id = pid →
      ∀ q ∈ s.print_queue_entries, q.id = qid → p.current_resin = q.resin_code) :
    StoreWF { s with print_requests := s.print_requests ++ [⟨s.next_pr_id, qid, pid⟩],
                     next_pr_id := s.next_pr_id + 1 } ∧
    materialOK { s with print_requests := s.print_requests ++ [⟨s.next_pr_id, qid, pid⟩],
                        next_pr_id := s.next_pr_id + 1 } := by
  constructor
  · refine ⟨hwf.printers_nodup, hwf.pqes_nodup, hwf.pqe_id_lt, ?_, ?_, ?_, ?_, ?_, ?_⟩
    · rw [List.map_append]
      exact nodup_concat hwf.pr_ids_nodup (by
        intro hmem
        obtain ⟨r, hr, hrid⟩ := List.mem_map.1 hmem
        exact absurd hrid (Nat.ne_of_lt (hwf.pr_id_lt r hr)))
    · intro r hr
      rcases List.mem_append.1 hr with h | h
      · exact Nat.lt_trans (hwf.pr_id_lt r h) (Nat.lt_succ_self _)
      · rw [List.mem_singleton.1 h]
        exact Nat.lt_succ_self _
    · rw [List.map_append]
      exact nodup_concat hwf.pr_printer_nodup (by
        intro hmem
        obtain ⟨r, hr, hrid⟩ := List.mem_map.1 hmem
        exact findPrByPrinterId_eq_none.1 hpno r hr hrid)
    · rw [List.map_append]
      exact nodup_concat hwf.pr_pqe_nodup (by
        intro hmem
        obtain ⟨r, hr, hrid⟩ := List.mem_map.1 hmem
        exact findPrByPqeId_eq_none.1 hqno r hr hrid)
    · intro r hr
      rcases List.mem_append.1 hr with h | h
      · exact hwf.pr_printer_ref r h
      · rw [List.mem_singleton.1 h]
        exact hpmem
    · intro r hr
      rcases List.mem_append.1 hr with h | h
      · exact hwf.pr_pqe_ref r h
      · rw [List.mem_singleton.1 h]
        exact hqmem
  · intro r hr p hp hpid q hq hqid
    rcases List.mem_append.1 hr with h | h
    · exact hmat r h p hp hpid q hq hqid
    · rw [List.mem_singleton.1 h] at hpid hqid
      exact hres p hp hpid q hq hqid

/-- Lemma: `assign_printer_to_pqe` preserves the invariant when the snapshot
queue entry matches a stored row that carries no print request. -/
theorem assign_printer_to_pqe_inv {pqe : PrintQueueEntry} {s : Store}
    (hwf : StoreWF s) (hmat : materialOK s)
    (hqmem : ∃ q0 ∈ s.print_queue_entries, q0.id = pqe.id ∧ q0.resin_code = pqe.resin_code)
    (hqno : findPrByPqeId s pqe.id = none) :
    StoreWF (assign_printer_to_pqe pqe s).1 ∧ materialOK (assign_printer_to_pqe pqe s).1 := by
  rcases assign_printer_to_pqe_cases pqe s with heq | ⟨p, hpmem, _hidle, hpres, hpno, heq⟩
  · rw [heq]; exact ⟨hwf, hmat⟩
  · rw [heq]
    obtain ⟨q0, hq0mem, hq0id, hq0res⟩ := hqmem
    refine StoreInv_append_pr hwf hmat hpno hqno ⟨p, hpmem, rfl⟩ ⟨q0, hq0mem, hq0id⟩ ?_
    intro p' hp' hp'id q' hq' hq'id
    have hpp : p' = p := nodup_key_inj hwf.printers_nodup hp' hpmem hp'id
    have hqq : q' = q0 := nodup_key_inj hwf.pqes_nodup hq' hq0mem (hq'id.trans hq0id.symm)
    rw [hpp, hqq, hpres, hq0res]

/-- Lemma: `assign_pqe_to_printer` preserves the invariant when the snapshot
printer matches a stored row that carries no print request. -/
theorem assign_pqe_to_printer_inv {printer : Printer} {s : Store}
    (hwf : StoreWF s) (hmat : materialOK s)
    (hpmem : ∃ p0 ∈ s.printers, p0.id = printer.id ∧ p0.current_resin = printer.current_resin)
    (hpno : findPrByPrinterId s printer.id = none) :
    StoreWF (assign_pqe_to_printer printer s).1 ∧ materialOK (assign_pqe_to_printer printer s).1 := by
  rcases assign_pqe_to_printer_cases printer s with heq | ⟨_hidle, q, hqmem, hqres, hqno, heq⟩
  · rw [heq]; exact ⟨hwf, hmat⟩
  · rw [heq]
    obtain ⟨p0, hp0mem, hp0id, hp0res⟩ := hpmem
    refine StoreInv_append_pr hwf hmat ?_ hqno ⟨p0, hp0mem, hp0id⟩ ⟨q, hqmem, rfl⟩ ?_
    · exact hp0id ▸ hpno
    · intro p' hp' hp'id q' hq' hq'id
      have hpp : p' = p0 := nodup_key_inj hwf.printers_nodup hp' hp0mem (hp'id.trans hp0id.symm)
      have hqq : q' = q := nodup_key_inj hwf.pqes_nodup hq' hqmem hq'id
      rw [hpp, hqq, hp0res, hqres]

theorem removePR_wf {pr : PrintRequest} {s : Store} (hwf : StoreWF s) :
    StoreWF (removePR pr s).1 :=
  ⟨hwf.printers_nodup, hwf.pqes_nodup, hwf.pqe_id_lt,
    nodup_map_eraseP hwf.pr_ids_nodup,
    fun r hr => hwf.pr_id_lt r (mem_of_mem_eraseP hr),
    nodup_map_eraseP hwf.pr_printer_nodup,
    nodup_map_eraseP hwf.pr_pqe_nodup,
    fun r hr => hwf.pr_printer_ref r (mem_of_mem_eraseP hr),
    fun r hr => hwf.pr_pqe_ref r (mem_of_mem_eraseP hr)⟩

theorem removePR_material {pr : PrintRequest} {s : Store} (hmat : materialOK s) :
    materialOK (removePR pr s).1 := by
  intro r hr
  exact hmat r (mem_of_mem_eraseP hr)

/-- Surviving rows after removing the found print request differ from
it, hence bind other printers and other queue entries. -/
theorem erase_found_survivor_ne {s : Store} {pr r : PrintRequest}
    (hid : (s.print_requests.map PrintRequest.id).Nodup)
    (hpnd : (s.print_requests.map PrintRequest.printer_id).Nodup)
    (hqnd : (s.print_requests.map PrintRequest.print_queue_entry_id).Nodup)
    (hprmem : pr ∈ s.print_requests)
    (hr : r ∈ (removePR pr s).1.print_requests) :
    r ∈ s.print_requests ∧ r.printer_id ≠ pr.printer_id ∧
      r.print_queue_entry_id ≠ pr.print_queue_entry_id := by
  have hrl : r ∈ s.print_requests.eraseP (fun x => x.id == pr.id) := hr
  have hne : r.id ≠ pr.id := eraseP_beq_ne PrintRequest.id pr.id _ hid r hrl
  have hmem : r ∈ s.print_requests := mem_of_mem_eraseP hrl
  have hrne : r ≠ pr := fun h => hne (congrArg PrintRequest.id h)
  refine ⟨hmem, ?_, ?_⟩
  · intro hcontra
    exact hrne (nodup_key_inj hpnd hmem hprmem hcontra)
  · intro hcontra
    exact hrne (nodup_key_inj hqnd hmem hprmem hcontra)

/-- After removing the print request found for a printer, that printer
carries no print request. -/
theorem erase_found_printer_none {s : Store} {pid : String} {pr : PrintRequest}
    (hid : (s.print_requests.map PrintRequest.id).Nodup)
    (hpnd : (s.print_requests.map PrintRequest.printer_id).Nodup)
    (hqnd : (s.print_requests.map PrintRequest.print_queue_entry_id).Nodup)
    (hfind : findPrByPrinterId s pid = some pr) :
    findPrByPrinterId (removePR pr s).1 pid = none := by
  rw [findPrByPrinterId_eq_none]
  intro r hr
  obtain ⟨hprmem, hpid⟩ := findPrByPrinterId_eq_some hfind
  obtain ⟨_, hne, _⟩ := erase_found_survivor_ne hid hpnd hqnd hprmem hr
  rw [← hpid]
  exact hne

/-- After removing the print request found for a queue entry, that
entry carries no print request. -/
theorem erase_found_pqe_none {s : Store} {qid : Nat} {pr : PrintRequest}
    (hid : (s.print_requests.map PrintRequest.id).Nodup)
    (hpnd : (s.print_requests.map PrintRequest.printer_id).Nodup)
    (hqnd : (s.print_requests.map PrintRequest.print_queue_entry_id).Nodup)
    (hfind : findPrByPqeId s qid = some pr) :
    findPrByPqeId (removePR pr s).1 qid = none := by
  rw [findPrByPqeId_eq_none]
  intro r hr
  obtain ⟨hprmem, hpid⟩ := findPrByPqeId_eq_some hfind
  obtain ⟨_, _, hne⟩ := erase_found_survivor_ne hid hpnd hqnd hprmem hr
  rw [← hpid]
  exact hne

/-- An element whose key differs from the erased key survives the
erasure. -/
theorem mem_eraseP_of_key_ne {α κ : Type} [BEq κ] [LawfulBEq κ] (f : α → κ) (k : κ) :
    ∀ (l : List α), ∀ a ∈ l, f a ≠ k → a ∈ l.eraseP (fun x => f x == k) := by
  intro l
  induction l with
  | nil => intro a ha; simp at ha
  | cons h t ih =>
    intro a ha hne
    by_cases hh : f h = k
    · rw [List.eraseP_cons, show (f h == k) = true from beq_iff_eq.2 hh]
      simp only [cond_true]
      rcases List.mem_cons.1 ha with h1 | h1
      · exact absurd (show f a = k by rw [h1]; exact hh) hne
      · exact h1
    · rw [List.eraseP_cons, show (f h == k) = false from by simp [hh]]
      simp only [cond_false]
      rcases List.mem_cons.1 ha with h1 | h1
      · exact List.mem_cons.2 (Or.inl h1)
      · exact List.mem_cons.2 (Or.inr (ih a h1 hne))

theorem findPqeById_isSome_of_mem {s : Store} {qid : Nat}
    (h : ∃ q ∈ s.print_queue_entries, q.id = qid) :
    ∃ q', findPqeById s qid = some q' := by
  obtain ⟨q, hq, hid⟩ := h
  have : (s.print_queue_entries.find? (fun x => x.id == qid)).isSome :=
    List.find?_isSome.2 ⟨q, hq, by simp [hid]⟩
  exact Option.isSome_iff_exists.1 this

/-! ## Invariant preservation by the reaction handlers -/

theorem handle_printer_add_inv {printer : Printer} {s : Store}
    (hwf : StoreWF s) (hmat : materialOK s)
    (hpmem : ∃ p0 ∈ s.printers, p0.id = printer.id ∧ p0.current_resin = printer.current_resin) :
    StoreWF (handle_printer_add printer s).1 ∧ materialOK (handle_printer_add printer s).1 := by
  unfold handle_printer_add
  cases hfind : findPrByPrinterId s printer.id with
  | some pr => exact ⟨hwf, hmat⟩
  | none => exact assign_pqe_to_printer_inv hwf hmat hpmem hfind

theorem handle_printer_update_inv {printer : Printer} {s : Store}
    (hwf : StoreWF s) (hexc : materialExceptPrinter s printer.id)
    (hpmem : ∃ p0 ∈ s.printers, p0.id = printer.id ∧ p0.current_resin = printer.current_resin) :
    StoreWF (handle_printer_update printer s).1 ∧ materialOK (handle_printer_update printer s).1 := by
  unfold handle_printer_update
  cases hfind : findPrByPrinterId s printer.id with
  | none =>
    have hmat : materialOK s := fun r hr =>
      hexc r hr (findPrByPrinterId_eq_none.1 hfind r hr)
    exact assign_pqe_to_printer_inv hwf hmat hpmem hfind
  | some pr =>
    obtain ⟨hprmem, hpid⟩ := findPrByPrinterId_eq_some hfind
    obtain ⟨pqe, hpqe⟩ := findPqeById_isSome_of_mem (hwf.pr_pqe_ref pr hprmem)
    dsimp only
    rw [hpqe]
    dsimp only
    obtain ⟨hpqemem, hpqeid⟩ := findPqeById_eq_some hpqe
    by_cases hres : (pqe.resin_code != printer.current_resin) = true
    · rw [if_pos hres]
      show StoreWF (assign_pqe_to_printer printer (removePR pr s).1).1 ∧
        materialOK (assign_pqe_to_printer printer (removePR pr s).1).1
      have hwf1 : StoreWF (removePR pr s).1 := removePR_wf hwf
      have hmat1 : materialOK (removePR pr s).1 := by
        intro r hr p hp hpid' q hq hqid'
        obtain ⟨hmem, hnep, _⟩ := erase_found_survivor_ne hwf.pr_ids_nodup
          hwf.pr_printer_nodup hwf.pr_pqe_nodup hprmem hr
        exact hexc r hmem (fun hcon => hnep (hcon.trans hpid.symm)) p hp hpid' q hq hqid'
      refine assign_pqe_to_printer_inv hwf1 hmat1 ?_ ?_
      · exact hpmem
      · exact erase_found_printer_none hwf.pr_ids_nodup hwf.pr_printer_nodup
          hwf.pr_pqe_nodup hfind
    · rw [if_neg hres]
      have hreq : pqe.resin_code = printer.current_resin := by
        simpa using hres
      refine ⟨hwf, ?_⟩
      intro r hr p hp hpid' q hq hqid'
      by_cases hrp : r.printer_id = printer.id
      · have hrpr : r = pr :=
          nodup_key_inj hwf.pr_printer_nodup hr hprmem (hrp.trans hpid.symm)
        obtain ⟨p0, hp0, hp0id, hp0res⟩ := hpmem
        have hpp0 : p = p0 :=
          nodup_key_inj hwf.printers_nodup hp hp0 (by rw [hpid', hrp, hp0id])
        have hqpqe : q = pqe :=
          nodup_key_inj hwf.pqes_nodup hq hpqemem (by rw [hqid', hrpr, hpqeid])
        rw [hpp0, hqpqe, hp0res, hreq]
      · exact hexc r hr hrp p hp hpid' q hq hqid'

theorem handle_printer_removal_inv {serial : String} {p0 : Printer} {s0 : Store}
    (hwf : StoreWF s0) (hmat : materialOK s0)
    (hp0 : findPrinterById s0 serial = some p0) :
    StoreWF (handle_printer_removal p0
        { s0 with printers := s0.printers.eraseP (fun q => q.id == serial) }).1 ∧
    materialOK (handle_printer_removal p0
        { s0 with printers := s0.printers.eraseP (fun q => q.id == serial) }).1 := by
  obtain ⟨hp0mem, hp0id⟩ := findPrinterById_eq_some hp0
  set s : Store := { s0 with printers := s0.printers.eraseP (fun q => q.id == serial) } with hs
  have hpnodup : (s.printers.map Printer.id).Nodup := nodup_map_eraseP hwf.printers_nodup
  have hnoserial : ∀ p ∈ s.printers, p.id ≠ serial := fun p hp =>
    eraseP_beq_ne Printer.id serial _ hwf.printers_nodup p hp
  unfold handle_printer_removal
  cases hfind : findPrByPrinterId s p0.id with
  | none =>
    dsimp only
    constructor
    · refine ⟨hpnodup, hwf.pqes_nodup, hwf.pqe_id_lt, hwf.pr_ids_nodup, hwf.pr_id_lt,
        hwf.pr_printer_nodup, hwf.pr_pqe_nodup, ?_, hwf.pr_pqe_ref⟩
      intro r hr
      obtain ⟨p, hp, hpid⟩ := hwf.pr_printer_ref r hr
      refine ⟨p, ?_, hpid⟩
      refine mem_eraseP_of_key_ne Printer.id serial _ p hp ?_
      rw [hpid, ← hp0id]
      exact findPrByPrinterId_eq_none.1 hfind r hr
    · intro r hr p hp hpid q hq hqid
      exact hmat r hr p (mem_of_mem_eraseP hp) hpid q hq hqid
  | some pr =>
    obtain ⟨hprmem, hpid⟩ := findPrByPrinterId_eq_some hfind
    obtain ⟨pqe, hpqe⟩ := findPqeById_isSome_of_mem (s := s) (hwf.pr_pqe_ref pr hprmem)
    dsimp only
    rw [hpqe]
    dsimp only
    obtain ⟨hpqemem, hpqeid⟩ := findPqeById_eq_some hpqe
    have hsurv : ∀ r ∈ (removePR pr s).1.print_requests,
        r ∈ s0.print_requests ∧ r.printer_id ≠ pr.printer_id ∧
          r.print_queue_entry_id ≠ pr.print_queue_entry_id := fun r hr =>
      erase_found_survivor_ne hwf.pr_ids_nodup hwf.pr_printer_nodup hwf.pr_pqe_nodup hprmem hr
    have hwf1 : StoreWF (removePR pr s).1 := by
      refine ⟨hpnodup, hwf.pqes_nodup, hwf.pqe_id_lt,
        nodup_map_eraseP hwf.pr_ids_nodup,
        fun r hr => hwf.pr_id_lt r (mem_of_mem_eraseP hr),
        nodup_map_eraseP hwf.pr_printer_nodup,
        nodup_map_eraseP hwf.pr_pqe_nodup, ?_, ?_⟩
      · intro r hr
        obtain ⟨hmem0, hnep, _⟩ := hsurv r hr
        obtain ⟨p, hp, hpid'⟩ := hwf.pr_printer_ref r hmem0
        refine ⟨p, ?_, hpid'⟩
        refine mem_eraseP_of_key_ne Printer.id serial _ p hp ?_
        rw [hpid']
        intro hcon
        exact hnep (hcon.trans (hp0id.symm.trans hpid.symm))
      · intro r hr
        exact hwf.pr_pqe_ref r (hsurv r hr).1
    have hmat1 : materialOK (removePR pr s).1 := by
      intro r hr p hp hpid' q hq hqid'
      exact hmat r (hsurv r hr).1 p (mem_of_mem_eraseP hp) hpid' q hq hqid'
    refine assign_printer_to_pqe_inv hwf1 hmat1 ⟨pqe, hpqemem, rfl, rfl⟩ ?_
    rw [findPrByPqeId_eq_none]
    intro r hr
    rw [hpqeid]
    exact (hsurv r hr).2.2

theorem handle_pqe_removal_inv {qid : Nat} {q0 : PrintQueueEntry} {s0 : Store}
    (hwf : StoreWF s0) (hmat : materialOK s0)
    (hq0 : findPqeById s0 qid = some q0) :
    StoreWF (handle_pqe_removal q0
        { s0 with print_queue_entries := s0.print_queue_entries.eraseP (fun x => x.id == qid) }).1 ∧
    materialOK (handle_pqe_removal q0
        { s0 with print_queue_entries := s0.print_queue_entries.eraseP (fun x => x.id == qid) }).1 := by
  obtain ⟨hq0mem, hq0id⟩ := findPqeById_eq_some hq0
  set s : Store := { s0 with
    print_queue_entries := s0.print_queue_entries.eraseP (fun x => x.id == qid) } with hs
  have hqnodup : (s.print_queue_entries.map PrintQueueEntry.id).Nodup :=
    nodup_map_eraseP hwf.pqes_nodup
  unfold handle_pqe_removal
  cases hfind : findPrByPqeId s q0.id with
  | none =>
    dsimp only
    constructor
    · refine ⟨hwf.printers_nodup, hqnodup,
        fun q hq => hwf.pqe_id_lt q (mem_of_mem_eraseP hq),
        hwf.pr_ids_nodup, hwf.pr_id_lt, hwf.pr_printer_nodup, hwf.pr_pqe_nodup,
        hwf.pr_printer_ref, ?_⟩
      intro r hr
      obtain ⟨q, hq, hqid'⟩ := hwf.pr_pqe_ref r hr
      refine ⟨q, ?_, hqid'⟩
      refine mem_eraseP_of_key_ne PrintQueueEntry.id qid _ q hq ?_
      rw [hqid', ← hq0id]
      exact findPrByPqeId_eq_none.1 hfind r hr
    · intro r hr p hp hpid q hq hqid'
      exact hmat r hr p hp hpid q (mem_of_mem_eraseP hq) hqid'
  | some pr =>
    obtain ⟨hprmem, hpid⟩ := findPrByPqeId_eq_some hfind
    dsimp only
    have hsurv : ∀ r ∈ (removePR pr s).1.print_requests,
        r ∈ s0.print_requests ∧ r.printer_id ≠ pr.printer_id ∧
          r.print_queue_entry_id ≠ pr.print_queue_entry_id := fun r hr =>
      erase_found_survivor_ne hwf.pr_ids_nodup hwf.pr_printer_nodup hwf.pr_pqe_nodup hprmem hr
    constructor
    · refine ⟨hwf.printers_nodup, hqnodup,
        fun q hq => hwf.pqe_id_lt q (mem_of_mem_eraseP hq),
        nodup_map_eraseP hwf.pr_ids_nodup,
        fun r hr => hwf.pr_id_lt r (mem_of_mem_eraseP hr),
        nodup_map_eraseP hwf.pr_printer_nodup,
        nodup_map_eraseP hwf.pr_pqe_nodup, ?_, ?_⟩
      · intro r hr
        exact hwf.pr_printer_ref r (hsurv r hr).1
      · intro r hr
        obtain ⟨hmem0, _, hneq⟩ := hsurv r hr
        obtain ⟨q, hq, hqid'⟩ := hwf.pr_pqe_ref r hmem0
        refine ⟨q, ?_, hqid'⟩
        refine mem_eraseP_of_key_ne PrintQueueEntry.id qid _ q hq ?_
        rw [hqid']
        intro hcon
        exact hneq (hcon.trans (hq0id.symm.trans hpid.symm))
    · intro r hr p hp hpid' q hq hqid'
      exact hmat r (hsurv r hr).1 p hp hpid' q (mem_of_mem_eraseP hq) hqid'

/-! ## `user_requests_print`, characterised -/

theorem urp_fold (jid : Nat) (rc : String) (lp : Int) :
    ∀ (n : Nat) (bb : BB),
      (List.range n).foldl (fun acc (i : Nat) =>
        let q : PrintQueueEntry := ⟨acc.store.next_pqe_id, jid, lp + i, rc⟩
        ⟨{ acc.store with print_queue_entries := acc.store.print_queue_entries ++ [q],
                          next_pqe_id := acc.store.next_pqe_id + 1 },
         acc.notifications ++ [⟨"PrintQueueEntry", .ADDED_OBJECT, .pqeD q⟩]⟩) bb
      = ⟨{ bb.store with
            print_queue_entries := bb.store.print_queue_entries ++
              (List.range n).map
                (fun i => (⟨bb.store.next_pqe_id + i, jid, lp + i, rc⟩ : PrintQueueEntry)),
            next_pqe_id := bb.store.next_pqe_id + n },
         bb.notifications ++ (List.range n).map
           (fun i => (⟨"PrintQueueEntry", ChangeEvent.ADDED_OBJECT,
             NotifData.pqeD ⟨bb.store.next_pqe_id + i, jid, lp + i, rc⟩⟩ : Rec))⟩ := by
  intro n
  induction n with
  | zero =>
    intro bb
    cases bb with
    | mk s notifs => simp
  | succ m ih =>
    intro bb
    rw [List.range_succ, List.foldl_append, ih]
    simp only [List.foldl_cons, List.foldl_nil, List.map_append, List.map_cons, List.map_nil,
      ← List.append_assoc, ← Nat.add_assoc]

theorem user_requests_print_spec {bb : BB} {jid : Nat} {job : Job} (n : Nat)
    (hfind : findJobById bb.store jid = some job) :
    user_requests_print jid n bb =
      (⟨{ bb.store with
            print_queue_entries := bb.store.print_queue_entries ++
              requestPrintEntries bb.store jid job.resin_code n,
            next_pqe_id := bb.store.next_pqe_id + n },
        bb.notifications ++ (requestPrintEntries bb.store jid job.resin_code n).map
          (fun q => ⟨"PrintQueueEntry", ChangeEvent.ADDED_OBJECT, NotifData.pqeD q⟩)⟩,
       false) := by
  unfold user_requests_print
  rw [hfind]
  dsimp only
  rw [urp_fold jid job.resin_code (lastPos bb.store) n bb]
  simp [requestPrintEntries, List.map_map, Function.comp]

/-- Ids of the freshly created queue entries are distinct. -/
theorem requestPrintEntries_ids_nodup (s : Store) (jid : Nat) (rc : String) (n : Nat) :
    ((requestPrintEntries s jid rc n).map PrintQueueEntry.id).Nodup := by
  rw [requestPrintEntries, List.map_map]
  exact List.Nodup.map (fun a b h => by simpa using h) (List.nodup_range n)

theorem requestPrintEntries_mem {s : Store} {jid : Nat} {rc : String} {n : Nat}
    {q : PrintQueueEntry} (h : q ∈ requestPrintEntries s jid rc n) :
    s.next_pqe_id ≤ q.id ∧ q.id < s.next_pqe_id + n ∧ q.resin_code = rc := by
  rw [requestPrintEntries] at h
  obtain ⟨i, hi, rfl⟩ := List.mem_map.1 h
  rw [List.mem_range] at hi
  exact ⟨Nat.le_add_right _ _, by show s.next_pqe_id + i < s.next_pqe_id + n; omega, rfl⟩

/-- The store right after a successful `user_requests_print` commits
satisfies the invariant, and none of the new entries carries a print
request. -/
theorem requestPrint_store_inv {s : Store} (hwf : StoreWF s) (hmat : materialOK s)
    (jid : Nat) (rc : String) (n : Nat) :
    StoreWF { s with
        print_queue_entries := s.print_queue_entries ++ requestPrintEntries s jid rc n,
        next_pqe_id := s.next_pqe_id + n } ∧
    materialOK { s with
        print_queue_entries := s.print_queue_entries ++ requestPrintEntries s jid rc n,
        next_pqe_id := s.next_pqe_id + n } := by
  constructor
  · refine ⟨hwf.printers_nodup, ?_, ?_, hwf.pr_ids_nodup, hwf.pr_id_lt,
      hwf.pr_printer_nodup, hwf.pr_pqe_nodup, hwf.pr_printer_ref, ?_⟩
    · rw [List.map_append, List.nodup_append]
      refine ⟨hwf.pqes_nodup, requestPrintEntries_ids_nodup s jid rc n, ?_⟩
      intro x hx hx'
      obtain ⟨q, hq, rfl⟩ := List.mem_map.1 hx
      obtain ⟨q', hq', hqid⟩ := List.mem_map.1 hx'
      have h1 := hwf.pqe_id_lt q hq
      have h2 := (requestPrintEntries_mem hq').1
      omega
    · intro q hq
      rcases List.mem_append.1 hq with h | h
      · exact Nat.lt_of_lt_of_le (hwf.pqe_id_lt q h) (Nat.le_add_right _ _)
      · exact (requestPrintEntries_mem h).2.1
    · intro r hr
      obtain ⟨q, hq, hqid⟩ := hwf.pr_pqe_ref r hr
      exact ⟨q, List.mem_append.2 (Or.inl hq), hqid⟩
  · intro r hr p hp hpid q hq hqid
    rcases List.mem_append.1 hq with h | h
    · exact hmat r hr p hp hpid q h hqid
    · obtain ⟨q0, hq0, hq0id⟩ := hwf.pr_pqe_ref r hr
      have h1 := hwf.pqe_id_lt q0 hq0
      have h2 := (requestPrintEntries_mem h).1
      omega

/-! ## Batch delivery of queue-entry ADDED notifications -/

theorem deliverList_pqe_batch :
    ∀ (qs : List PrintQueueEntry) (s : Store),
      StoreWF s → materialOK s →
      (∀ q ∈ qs, (∃ q0 ∈ s.print_queue_entries, q0.id = q.id ∧ q0.resin_code = q.resin_code)
        ∧ findPrByPqeId s q.id = none) →
      (qs.map PrintQueueEntry.id).Nodup →
      StoreWF (deliverList s (qs.map
        (fun q => ⟨"PrintQueueEntry", .ADDED_OBJECT, .pqeD q⟩))).1 ∧
      materialOK (deliverList s (qs.map
        (fun q => ⟨"PrintQueueEntry", .ADDED_OBJECT, .pqeD q⟩))).1 := by
  intro qs
  induction qs with
  | nil => intro s hwf hmat _ _; exact ⟨hwf, hmat⟩
  | cons q rest ih =>
    intro s hwf hmat hq hnd
    rw [List.map_cons, deliverList_cons]
    have hone : deliverOne s ⟨"PrintQueueEntry", .ADDED_OBJECT, .pqeD q⟩
        = assign_printer_to_pqe q s := by
      simp [deliverOne, on_pqe_callback, handle_pqe_add]
    rw [hone]
    obtain ⟨hq0, hnone⟩ := hq q (List.mem_cons_self q rest)
    have hinv1 := assign_printer_to_pqe_inv hwf hmat hq0 hnone
    rw [List.map_cons, List.nodup_cons] at hnd
    refine ih _ hinv1.1 hinv1.2 ?_ hnd.2
    intro q' hq'
    obtain ⟨⟨q0', hq0'mem, hq0'id, hq0'res⟩, hnone'⟩ := hq q' (List.mem_cons_of_mem q hq')
    have hne : q'.id ≠ q.id := by
      intro hcon
      exact hnd.1 (hcon ▸ List.mem_map_of_mem PrintQueueEntry.id hq')
    rcases assign_printer_to_pqe_cases q s with heq | ⟨_, qq, hqqmem, _, _, heq⟩
    · rw [heq]
      exact ⟨⟨q0', hq0'mem, hq0'id, hq0'res⟩, hnone'⟩
    · rw [heq]
      constructor
      · exact ⟨q0', hq0'mem, hq0'id, hq0'res⟩
      · rw [findPrByPqeId_eq_none]
        intro r hr
        rcases List.mem_append.1 hr with h | h
        · exact findPrByPqeId_eq_none.1 hnone' r h
        · rw [List.mem_singleton.1 h]
          exact fun hcon => hne (hcon.symm)

/-! ## Singleton delivery computations -/

theorem deliverList_singleton (s : Store) (r : Rec) :
    deliverList s [r] = ((deliverOne s r).1, (deliverOne s r).2) := by
  rw [deliverList_cons]
  simp [deliverList]

theorem deliverOne_printer (evt : ChangeEvent) (d : NotifData) (s : Store) :
    deliverOne s ⟨"Printer", evt, d⟩ = on_printer_callback evt d s := by
  simp [deliverOne]

theorem deliverOne_pqe (evt : ChangeEvent) (d : NotifData) (s : Store) :
    deliverOne s ⟨"PrintQueueEntry", evt, d⟩ = on_pqe_callback evt d s := by
  simp [deliverOne]

theorem deliverOne_job (evt : ChangeEvent) (d : NotifData) (s : Store) :
    deliverOne s ⟨"Job", evt, d⟩ = (s, []) := by
  simp [deliverOne]

/-! ## Heartbeat update: the printer list keeps its ids -/

theorem update_printers_ids (printers : List Printer) (serial : String) (p' : Printer)
    (hid : p'.id = serial) :
    (printers.map (fun q => if q.id == serial then p' else q)).map Printer.id
      = printers.map Printer.id := by
  rw [List.map_map]
  apply List.map_congr_left
  intro q hq
  by_cases h : q.id = serial
  · simp [Function.comp, h, hid]
  · simp [Function.comp, h]

theorem mem_update_printers {printers : List Printer} {serial : String} {p' : Printer}
    {x : Printer} (hx : x ∈ printers.map (fun q => if q.id == serial then p' else q)) :
    x = p' ∨ (x ∈ printers ∧ x.id ≠ serial) := by
  obtain ⟨q, hq, rfl⟩ := List.mem_map.1 hx
  by_cases h : q.id = serial
  · left; simp [h]
  · right
    constructor
    · simpa [h] using hq
    · simp [h]

theorem mem_update_printers_of_ne {printers : List Printer} {serial : String} {p' : Printer}
    {q : Printer} (hq : q ∈ printers) (h : q.id ≠ serial) :
    q ∈ printers.map (fun q => if q.id == serial then p' else q) :=
  List.mem_map.2 ⟨q, hq, by simp [h]⟩

/-! ## The main preservation theorem: every external action followed by
its drain preserves the invariant -/

theorem step_inv (a : Action) {bb : BB} (h : Inv bb) : Inv (step a bb) := by
  obtain ⟨⟨hwf, hmat⟩, hnil⟩ := h
  rw [step_eq]
  refine ⟨?_, rfl⟩
  cases a with
  | addJob name rc =>
    have happ : applyAction (.addJob name rc) bb =
        ⟨{ bb.store with jobs := bb.store.jobs ++ [⟨bb.store.next_job_id, name, rc⟩],
                         next_job_id := bb.store.next_job_id + 1 },
         [⟨"Job", .ADDED_OBJECT, .jobD ⟨bb.store.next_job_id, name, rc⟩⟩]⟩ := by
      simp [applyAction, user_adds_job, hnil]
    rw [happ]
    dsimp only
    rw [deliverList_singleton, deliverOne_job]
    exact ⟨⟨hwf.printers_nodup, hwf.pqes_nodup, hwf.pqe_id_lt, hwf.pr_ids_nodup,
      hwf.pr_id_lt, hwf.pr_printer_nodup, hwf.pr_pqe_nodup, hwf.pr_printer_ref,
      hwf.pr_pqe_ref⟩, hmat⟩
  | requestPrint jid n =>
    cases hj : findJobById bb.store jid with
    | none =>
      have happ : applyAction (.requestPrint jid n) bb = bb := by
        show (user_requests_print jid n bb).1 = bb
        unfold user_requests_print
        rw [hj]
      rw [happ, hnil]
      exact ⟨hwf, hmat⟩
    | some job =>
      have happ : applyAction (.requestPrint jid n) bb =
          ⟨{ bb.store with
              print_queue_entries := bb.store.print_queue_entries ++
                requestPrintEntries bb.store jid job.resin_code n,
              next_pqe_id := bb.store.next_pqe_id + n },
           (requestPrintEntries bb.store jid job.resin_code n).map
             (fun q => ⟨"PrintQueueEntry", ChangeEvent.ADDED_OBJECT, NotifData.pqeD q⟩)⟩ := by
        show (user_requests_print jid n bb).1 = _
        rw [user_requests_print_spec n hj]
        rw [hnil]
        rfl
      rw [happ]
      dsimp only
      obtain ⟨hwf', hmat'⟩ := requestPrint_store_inv hwf hmat jid job.resin_code n
      refine deliverList_pqe_batch _ _ hwf' hmat' ?_
        (requestPrintEntries_ids_nodup bb.store jid job.resin_code n)
      intro q hq
      constructor
      · exact ⟨q, List.mem_append.2 (Or.inr hq), rfl, rfl⟩
      · rw [findPrByPqeId_eq_none]
        intro r hr
        obtain ⟨q0, hq0, hq0id⟩ := hwf.pr_pqe_ref r hr
        have h1 := hwf.pqe_id_lt q0 hq0
        have h2 := (requestPrintEntries_mem hq).1
        omega
  | heartbeat serial status resin =>
    cases hfind : findPrinterById bb.store serial with
    | none =>
      have hserial_notin : ∀ p ∈ bb.store.printers, p.id ≠ serial :=
        findPrinterById_eq_none.1 hfind
      have hnopr_serial : ∀ r ∈ bb.store.print_requests, r.printer_id ≠ serial := by
        intro r hr hcon
        obtain ⟨p, hp, hpid⟩ := hwf.pr_printer_ref r hr
        exact hserial_notin p hp (hpid.trans hcon)
      have happ : applyAction (.heartbeat serial status resin) bb =
          ⟨{ bb.store with printers := bb.store.printers ++ [⟨serial, status, resin⟩] },
           [⟨"Printer", .ADDED_OBJECT, .printerD ⟨serial, status, resin⟩⟩]⟩ := by
        simp [applyAction, printer_heartbeat, hfind, hnil]
      rw [happ]
      dsimp only
      rw [deliverList_singleton, deliverOne_printer]
      have honc : on_printer_callback .ADDED_OBJECT (.printerD ⟨serial, status, resin⟩)
          { bb.store with printers := bb.store.printers ++ [⟨serial, status, resin⟩] }
          = handle_printer_add ⟨serial, status, resin⟩
            { bb.store with printers := bb.store.printers ++ [⟨serial, status, resin⟩] } := rfl
      rw [honc]
      have hwf1 : StoreWF { bb.store with
          printers := bb.store.printers ++ [⟨serial, status, resin⟩] } := by
        refine ⟨?_, hwf.pqes_nodup, hwf.pqe_id_lt, hwf.pr_ids_nodup, hwf.pr_id_lt,
          hwf.pr_printer_nodup, hwf.pr_pqe_nodup, ?_, hwf.pr_pqe_ref⟩
        · rw [List.map_append]
          refine nodup_concat hwf.printers_nodup ?_
          intro hmem
          obtain ⟨p, hp, hpid⟩ := List.mem_map.1 hmem
          exact hserial_notin p hp hpid
        · intro r hr
          obtain ⟨p, hp, hpid⟩ := hwf.pr_printer_ref r hr
          exact ⟨p, List.mem_append.2 (Or.inl hp), hpid⟩
      have hmat1 : materialOK { bb.store with
          printers := bb.store.printers ++ [⟨serial, status, resin⟩] } := by
        intro r hr p hp hpid q hq hqid
        rcases List.mem_append.1 hp with h | h
        · exact hmat r hr p h hpid q hq hqid
        · rw [List.mem_singleton.1 h] at hpid
          exact absurd hpid.symm (hnopr_serial r hr)
      exact handle_printer_add_inv hwf1 hmat1
        ⟨⟨serial, status, resin⟩, List.mem_append.2 (Or.inr (List.mem_singleton.2 rfl)),
          rfl, rfl⟩
    | some p =>
      obtain ⟨hpmem, hpid⟩ := findPrinterById_eq_some hfind
      by_cases hch : p.status ≠ status ∨ p.current_resin ≠ resin
      · have happ : applyAction (.heartbeat serial status resin) bb =
            ⟨{ bb.store with printers :=
                  bb.store.printers.map (fun q => if q.id == serial then ⟨p.id, status, resin⟩ else q) },
             [⟨"Printer", .UPDATED_OBJECT, .printerD ⟨p.id, status, resin⟩⟩]⟩ := by
          simp [applyAction, printer_heartbeat, hfind, hch, hnil]
        rw [happ]
        dsimp only
        rw [deliverList_singleton, deliverOne_printer]
        have honc : on_printer_callback .UPDATED_OBJECT (.printerD ⟨p.id, status, resin⟩)
            { bb.store with printers :=
                bb.store.printers.map (fun q => if q.id == serial then ⟨p.id, status, resin⟩ else q) }
            = handle_printer_update ⟨p.id, status, resin⟩
              { bb.store with printers :=
                  bb.store.printers.map (fun q => if q.id == serial then ⟨p.id, status, resin⟩ else q) } := rfl
        rw [honc]
        have hp'id : (⟨p.id, status, resin⟩ : Printer).id = serial := hpid
        have hwf1 : StoreWF
            { bb.store with printers :=
                bb.store.printers.map (fun q => if q.id == serial then ⟨p.id, status, resin⟩ else q) } := by
          refine ⟨?_, hwf.pqes_nodup, hwf.pqe_id_lt, hwf.pr_ids_nodup, hwf.pr_id_lt,
            hwf.pr_printer_nodup, hwf.pr_pqe_nodup, ?_, hwf.pr_pqe_ref⟩
          · rw [update_printers_ids _ serial _ hp'id]
            exact hwf.printers_nodup
          · intro r hr
            obtain ⟨p1, hp1, hp1id⟩ := hwf.pr_printer_ref r hr
            by_cases h1 : p1.id = serial
            · refine ⟨⟨p.id, status, resin⟩, ?_, hpid.trans (h1 ▸ hp1id)⟩
              exact List.mem_map.2 ⟨p1, hp1, by simp [h1]⟩
            · exact ⟨p1, mem_update_printers_of_ne hp1 h1, hp1id⟩
        have hexc1 : materialExceptPrinter
            { bb.store with printers :=
                bb.store.printers.map (fun q => if q.id == serial then ⟨p.id, status, resin⟩ else q) }
            (⟨p.id, status, resin⟩ : Printer).id := by
          intro r hr hrne p2 hp2 hpid2 q hq hqid2
          rcases mem_update_printers hp2 with h2 | ⟨hp2mem, _⟩
          · exact absurd ((congrArg Printer.id h2).symm.trans hpid2).symm hrne
          · exact hmat r hr p2 hp2mem hpid2 q hq hqid2
        refine handle_printer_update_inv hwf1 hexc1 ?_
        refine ⟨⟨p.id, status, resin⟩, ?_, rfl, rfl⟩
        exact List.mem_map.2 ⟨p, hpmem, by simp [hpid]⟩
      · have happ : applyAction (.heartbeat serial status resin) bb = bb := by
          simp [applyAction, printer_heartbeat, hfind, hch]
        rw [happ, hnil]
        exact ⟨hwf, hmat⟩
  | removePrinter serial =>
    cases hfind : findPrinterById bb.store serial with
    | none =>
      have happ : applyAction (.removePrinter serial) bb = bb := by
        simp [applyAction, remove_printer, hfind]
      rw [happ, hnil]
      exact ⟨hwf, hmat⟩
    | some p =>
      have happ : applyAction (.removePrinter serial) bb =
          ⟨{ bb.store with printers := bb.store.printers.eraseP (fun q => q.id == serial) },
           [⟨"Printer", .REMOVED_OBJECT, .printerD p⟩]⟩ := by
        simp [applyAction, remove_printer, hfind, hnil]
      rw [happ]
      dsimp only
      rw [deliverList_singleton, deliverOne_printer]
      exact handle_printer_removal_inv hwf hmat hfind
  | removePqe qid =>
    cases hfind : findPqeById bb.store qid with
    | none =>
      have happ : applyAction (.removePqe qid) bb = bb := by
        simp [applyAction, remove_pqe, hfind]
      rw [happ, hnil]
      exact ⟨hwf, hmat⟩
    | some q =>
      have happ : applyAction (.removePqe qid) bb =
          ⟨{ bb.store with print_queue_entries :=
                bb.store.print_queue_entries.eraseP (fun x => x.id == qid) },
           [⟨"PrintQueueEntry", .REMOVED_OBJECT, .pqeD q⟩]⟩ := by
        simp [applyAction, remove_pqe, hfind, hnil]
      rw [happ]
      dsimp only
      rw [deliverList_singleton, deliverOne_pqe]
      exact handle_pqe_removal_inv hwf hmat hfind

theorem Inv_init : Inv init := by
  refine ⟨⟨⟨?_, ?_, ?_, ?_, ?_, ?_, ?_, ?_, ?_⟩, ?_⟩, rfl⟩ <;> simp [init, materialOK]

theorem run_inv (acts : List Action) : Inv (run acts) := by
  have h : ∀ (l : List Action) (bb : BB), Inv bb →
      Inv (l.foldl (fun b a => step a b) bb) := by
    intro l
    induction l with
    | nil => intro bb hb; exact hb
    | cons a rest ih =>
      intro bb hb
      exact ih _ (step_inv a hb)
  exact h acts init Inv_init

theorem reachable_inv {bb : BB} (h : Reachable bb) : Inv bb := by
  obtain ⟨acts, rfl⟩ := h
  exact run_inv acts

/-! ## Remaining helpers for the claim theorems -/

theorem find?_append_of_none {α : Type} {l1 l2 : List α} {p : α → Bool}
    (h1 : l1.find? p = none) : (l1 ++ l2).find? p = l2.find? p := by
  induction l1 with
  | nil => simp
  | cons a t ih =>
    rw [List.find?_cons] at h1
    cases hpa : p a with
    | true => rw [hpa] at h1; exact absurd h1 (by simp)
    | false =>
      rw [hpa] at h1
      rw [List.cons_append, List.find?_cons, hpa]
      exact ih h1

theorem psInit_error_absorb (l : List PrintQueueEntry) (e : String) :
    l.foldl (fun acc _pqe =>
      acc.bind (fun _ =>
        if "handle_print_queue_entry" ∈ printerSchedulerMethods then Except.ok ()
        else Except.error "AttributeError: object has no attribute handle_print_queue_entry"))
      (Except.error e) = Except.error e := by
  induction l with
  | nil => rfl
  | cons q rest ih =>
    rw [List.foldl_cons]
    exact ih

theorem withTransaction_raised_absorb (ops : List TxOp) :
    ∀ (s : Store) (recs : List Rec),
      ops.foldl (fun (acc : Store × List Rec × Bool) op =>
        match acc with
        | (s, recs, true) => (s, recs, true)
        | (s, recs, false) =>
          match op with
          | .add_op o => (storeAdd o s, recs ++ [⟨className o, .ADDED_OBJECT, o⟩], false)
          | .raise_op => (s, recs, true)) (s, recs, true) = (s, recs, true) := by
  induction ops with
  | nil => intro s recs; rfl
  | cons op rest ih =>
    intro s recs
    rw [List.foldl_cons]
    exact ih s recs

theorem withTransaction_emits (ops : List TxOp) :
    ∀ (s : Store) (recs : List Rec),
      (ops.foldl (fun (acc : Store × List Rec × Bool) op =>
        match acc with
        | (s, recs, true) => (s, recs, true)
        | (s, recs, false) =>
          match op with
          | .add_op o => (storeAdd o s, recs ++ [⟨className o, .ADDED_OBJECT, o⟩], false)
          | .raise_op => (s, recs, true)) (s, recs, false)).2.1 = recs ++ txEmits ops := by
  induction ops with
  | nil => intro s recs; simp [txEmits]
  | cons op rest ih =>
    intro s recs
    rw [List.foldl_cons]
    cases op with
    | add_op o =>
      show (rest.foldl _ (storeAdd o s, recs ++ [⟨className o, .ADDED_OBJECT, o⟩], false)).2.1 = _
      rw [ih]
      simp [txEmits, List.takeWhile_cons, List.append_assoc]
    | raise_op =>
      show (rest.foldl _ (s, recs, true)).2.1 = _
      rw [withTransaction_raised_absorb]
      simp [txEmits, List.takeWhile_cons]

/-! ## The claims -/

/-- C3 (counterexample): a transaction body that adds a Job and then
raises leaves the store unchanged (rollback) but its `ADDED_OBJECT`
ChangeRecord is already in the pending-notification list when
`withTransaction` returns — the claim that a failing body emits no
ChangeRecords and leaves the pending list unchanged is false, because
`add_object` appends the notification immediately, not at commit. -/
theorem c3_notifications_survive_abort_cex :
    (withTransaction [.add_op (.jobD ⟨1, "a", "X"⟩), .raise_op] init).2 = true ∧
    (withTransaction [.add_op (.jobD ⟨1, "a", "X"⟩), .raise_op] init).1.store = init.store ∧
    (withTransaction [.add_op (.jobD ⟨1, "a", "X"⟩), .raise_op] init).1.notifications
      = [⟨"Job", ChangeEvent.ADDED_OBJECT, NotifData.jobD ⟨1, "a", "X"⟩⟩] ∧
    init.notifications = [] := by
  decide

/-- C3 (amended): when the transaction body raises, no mutation is
visible in the store (the session rolls back), but the ChangeRecords
the body emitted before the raise remain appended to the
pending-notification list (notification emission is immediate, not
commit-gated); in particular a `user_requests_print` on an unknown job
raises before any mutation, so it leaves the whole blackboard unchanged
— and its error is caught and logged inside the method rather than
surfaced. -/
theorem c3_transaction_abort_amended (ops : List TxOp) (bb : BB) (jid n : Nat)
    (herr : (withTransaction ops bb).2 = true)
    (hjob : findJobById bb.store jid = none) :
    (withTransaction ops bb).1.store = bb.store ∧
    (withTransaction ops bb).1.notifications = bb.notifications ++ txEmits ops ∧
    user_requests_print jid n bb = (bb, true) := by
  refine ⟨?_, ?_, ?_⟩
  · unfold withTransaction at herr ⊢
    cases hfold : (ops.foldl _ (bb.store, [], false)) with
    | mk s rest =>
      cases rest with
      | mk recs raised =>
        rw [hfold] at herr
        cases raised with
        | true => rfl
        | false => simp at herr
  · unfold withTransaction at herr ⊢
    have hemits := withTransaction_emits ops bb.store []
    cases hfold : (ops.foldl _ (bb.store, [], false)) with
    | mk s rest =>
      cases rest with
      | mk recs raised =>
        rw [hfold] at herr hemits
        cases raised with
        | true => simpa using hemits
        | false => simp at herr
  · unfold user_requests_print
    rw [hjob]

/-- C3 (witness). -/
theorem c3_transaction_abort_amended_witness :
    (withTransaction [.add_op (.printerD ⟨"p", .IDLE, "X"⟩), .raise_op] init).1.store = init.store ∧
    (withTransaction [.add_op (.printerD ⟨"p", .IDLE, "X"⟩), .raise_op] init).1.notifications
      = init.notifications ++ txEmits [.add_op (.printerD ⟨"p", .IDLE, "X"⟩), .raise_op] ∧
    user_requests_print 7 2 init = (init, true) :=
  c3_transaction_abort_amended [.add_op (.printerD ⟨"p", .IDLE, "X"⟩), .raise_op] init 7 2
    (by decide) (by decide)

/-- C4: one `flush_notifications` call delivers exactly the records
that were pending when it began, in FIFO order, for every set of
registered callbacks — even though callbacks may enqueue new records
during delivery, those end up in the new pending list and are the exact
batch the *next* flush delivers. -/
theorem c4_flush_delivers_exactly_pending (σ : Type)
    (cbs : List (String × List (Callback σ))) (st : BusState σ) :
    (flush_notifications cbs st).2 = st.pending ∧
    (flush_notifications cbs (flush_notifications cbs st).1).2 =
      (flush_notifications cbs st).1.pending := by
  have key : ∀ (recs : List Rec) (acc : BusState σ × List Rec),
      (recs.foldl (deliverRec cbs) acc).2 = acc.2 ++ recs := by
    intro recs
    induction recs with
    | nil => intro acc; simp
    | cons r rest ih =>
      intro acc
      rw [List.foldl_cons, ih]
      show (deliverRec cbs acc r).2 ++ rest = acc.2 ++ r :: rest
      dsimp only [deliverRec]
      rw [List.append_assoc, List.singleton_append]
  constructor
  · show (st.pending.foldl (deliverRec cbs) (⟨st.user, []⟩, [])).2 = st.pending
    rw [key]
    rfl
  · show ((flush_notifications cbs st).1.pending.foldl (deliverRec cbs) _).2 = _
    rw [key]
    rfl

/-- C5 (counterexample): re-running the QueueEntry-ADDED reaction on
the same snapshot from the same state creates a second Assignment for
the same queue entry when a second compatible idle printer exists —
`handle_pqe_add` performs no existence check for the entry's
Assignment.  The state used is exactly the mid-drain state after a
`user_requests_print` committed and its `ADDED_OBJECT` record is
pending, so the double run is a faithful re-delivery. -/
theorem c5_pqe_add_rerun_duplicate_cex :
    (applyAction (.requestPrint 1 1)
        (run [.heartbeat "p1" .IDLE "X", .heartbeat "p2" .IDLE "X",
              .addJob "j" "X"])).notifications
      = [⟨"PrintQueueEntry", ChangeEvent.ADDED_OBJECT, NotifData.pqeD ⟨1, 1, 0, "X"⟩⟩] ∧
    ((handle_pqe_add ⟨1, 1, 0, "X"⟩
        (handle_pqe_add ⟨1, 1, 0, "X"⟩
          (applyAction (.requestPrint 1 1)
            (run [.heartbeat "p1" .IDLE "X", .heartbeat "p2" .IDLE "X",
                  .addJob "j" "X"])).store).1).1.print_requests.map
      PrintRequest.print_queue_entry_id) = [1, 1] := by
  decide

/-- C5 (amended): the Printer-ADDED reaction is idempotent — running
`handle_printer_add` a second time on the same snapshot is a complete
no-op (no new Assignment, no emission), because the existence check on
the printer's Assignment precedes creation.  The QueueEntry-side
handlers have no such check (see the counterexample). -/
theorem c5_printer_add_idempotent_amended (printer : Printer) (s : Store) :
    handle_printer_add printer (handle_printer_add printer s).1
      = ((handle_printer_add printer s).1, []) := by
  cases hfind : findPrByPrinterId s printer.id with
  | some pr =>
    have h1 : handle_printer_add printer s = (s, []) := by
      unfold handle_printer_add
      rw [hfind]
    rw [h1]
    unfold handle_printer_add
    rw [hfind]
  | none =>
    have h1 : handle_printer_add printer s = assign_pqe_to_printer printer s := by
      unfold handle_printer_add
      rw [hfind]
    rcases assign_pqe_to_printer_cases printer s with heq | ⟨_, q, _, _, _, heq⟩
    · rw [h1, heq]
      unfold handle_printer_add
      rw [hfind, heq]
    · rw [h1, heq]
      unfold handle_printer_add
      have hfind2 : findPrByPrinterId
          { s with print_requests := s.print_requests ++ [⟨s.next_pr_id, q.id, printer.id⟩],
                   next_pr_id := s.next_pr_id + 1 } printer.id
          = some ⟨s.next_pr_id, q.id, printer.id⟩ := by
        show (s.print_requests ++ [(⟨s.next_pr_id, q.id, printer.id⟩ : PrintRequest)]).find?
          (fun r => r.printer_id == printer.id) = _
        rw [find?_append_of_none hfind]
        simp
      rw [hfind2]

/-- C7 (counterexample): `user_requests_print` on an unknown job id
returns normally — the `RuntimeError` is caught by the bare `except`
inside the method and only logged, so no error is surfaced to the
external caller (the `Bool` component records the caught internal
exception); no QueueEntry is created.  The claim that the failure is
surfaced (the call "does not return normally") is false. -/
theorem c7_unknown_job_error_swallowed_cex :
    user_requests_print 1 1 init = (init, true) ∧
    run [.requestPrint 1 1] = init := by
  decide

/-- C7 (amended): a `request_print` whose job id is unknown raises
`RuntimeError` internally before any mutation; the bare `except` logs
and swallows it, so the caller sees a normal return, the store and the
pending-notification list are unchanged, and no QueueEntry is
created. -/
theorem c7_unknown_job_amended {bb : BB} {jid : Nat} (n : Nat)
    (h : findJobById bb.store jid = none) :
    user_requests_print jid n bb = (bb, true) := by
  unfold user_requests_print
  rw [h]

/-- C7 (witness). -/
theorem c7_unknown_job_amended_witness :
    user_requests_print 42 3 init = (init, true) :=
  c7_unknown_job_amended 3 (by decide)

/-- C8 (counterexample): after one `request_print` has created an entry
at position 0 (the store's maximum position is then 0), a second
`request_print(J, 1)` creates its entry at position `last_pos + 0 = 0`
— equal to, not strictly exceeding, the pre-call maximum.  The claim
that all new positions strictly exceed the previous maximum is
false. -/
theorem c8_position_duplicates_max_cex :
    lastPos (run [.addJob "j" "X", .requestPrint 1 1]).store = 0 ∧
    (run [.addJob "j" "X", .requestPrint 1 1, .requestPrint 1 1]).store.print_queue_entries.map
      PrintQueueEntry.position = [0, 0] := by
  decide

/-- C8 (amended): for an existing job, `request_print(J, n)` creates
exactly `n` QueueEntries, each carrying the job's material code, with
positions `last_pos + 0, …, last_pos + (n-1)` where `last_pos` is the
largest existing position (clamped below at 0) — i.e. the new positions
are ≥ every prior position but the first one *ties* the current maximum
instead of strictly exceeding it. -/
theorem c8_request_print_amended {bb : BB} {jid : Nat} {job : Job} (n : Nat)
    (h : findJobById bb.store jid = some job) :
    (user_requests_print jid n bb).1.store.print_queue_entries =
      bb.store.print_queue_entries ++ requestPrintEntries bb.store jid job.resin_code n ∧
    (requestPrintEntries bb.store jid job.resin_code n).length = n ∧
    (∀ q ∈ requestPrintEntries bb.store jid job.resin_code n,
      q.resin_code = job.resin_code ∧ lastPos bb.store ≤ q.position ∧
        q.position < lastPos bb.store + n) := by
  refine ⟨?_, ?_, ?_⟩
  · rw [user_requests_print_spec n h]
  · simp [requestPrintEntries]
  · intro q hq
    rw [requestPrintEntries] at hq
    obtain ⟨i, hi, rfl⟩ := List.mem_map.1 hq
    rw [List.mem_range] at hi
    refine ⟨rfl, ?_, ?_⟩
    · show lastPos bb.store ≤ lastPos bb.store + (i : Int)
      omega
    · show lastPos bb.store + (i : Int) < lastPos bb.store + (n : Int)
      omega

/-- C8 (witness). -/
theorem c8_request_print_amended_witness :
    ((user_requests_print 1 2 (run [.addJob "j" "X"])).1.store.print_queue_entries =
      (run [.addJob "j" "X"]).store.print_queue_entries ++
        requestPrintEntries (run [.addJob "j" "X"]).store 1 "X" 2 ∧
    (requestPrintEntries (run [.addJob "j" "X"]).store 1 "X" 2).length = 2 ∧
    (∀ q ∈ requestPrintEntries (run [.addJob "j" "X"]).store 1 "X" 2,
      q.resin_code = "X" ∧ lastPos (run [.addJob "j" "X"]).store ≤ q.position ∧
        q.position < lastPos (run [.addJob "j" "X"]).store + 2)) :=
  @c8_request_print_amended (run [.addJob "j" "X"]) 1 ⟨1, "j", "X"⟩ 2 (by decide)

/-- C10: constructing a `PrinterScheduler` succeeds exactly when the
store holds no `PrintQueueEntry`: the catch-up loop in `__init__` calls
`self.handle_print_queue_entry(pqe)` for every stored entry, and the
class defines no method of that name, so the first iteration raises
`AttributeError`; with an empty table the loop body never runs and
construction succeeds. -/
theorem c10_scheduler_init_iff_no_pqe :
    "handle_print_queue_entry" ∉ printerSchedulerMethods ∧
    ∀ s : Store, printerSchedulerInit s = Except.ok () ↔ s.print_queue_entries = [] := by
  constructor
  · decide
  · intro s
    constructor
    · intro h
      cases hq : s.print_queue_entries with
      | nil => rfl
      | cons q rest =>
        unfold printerSchedulerInit at h
        rw [hq, List.foldl_cons] at h
        rw [show ((Except.ok () : Except String Unit).bind (fun _ =>
            if "handle_print_queue_entry" ∈ printerSchedulerMethods then Except.ok ()
            else Except.error
              "AttributeError: object has no attribute handle_print_queue_entry"))
          = Except.error
              "AttributeError: object has no attribute handle_print_queue_entry" from by
            rw [show ((Except.ok () : Except String Unit).bind (fun _ =>
              if "handle_print_queue_entry" ∈ printerSchedulerMethods then Except.ok ()
              else Except.error
                "AttributeError: object has no attribute handle_print_queue_entry"))
              = if "handle_print_queue_entry" ∈ printerSchedulerMethods then Except.ok ()
                else Except.error
                  "AttributeError: object has no attribute handle_print_queue_entry" from rfl]
            rw [if_neg (by decide)]] at h
        rw [psInit_error_absorb] at h
        exact absurd h (by simp)
    · intro h
      unfold printerSchedulerInit
      rw [h]
      rfl

/-- C1: at every reachable state — every sequence of external actions
(job submission, request_print, heartbeats, removals), each followed by
draining the notification bus to its fixed point — no two PrintRequests
reference the same printer id and no two reference the same queue-entry
id. -/
theorem c1_assignment_uniqueness {bb : BB} (h : Reachable bb) :
    (bb.store.print_requests.map PrintRequest.printer_id).Nodup ∧
    (bb.store.print_requests.map PrintRequest.print_queue_entry_id).Nodup :=
  ⟨(reachable_inv h).1.1.pr_printer_nodup, (reachable_inv h).1.1.pr_pqe_nodup⟩

/-- C1 (witness): a reachable state carrying two Assignments. -/
theorem c1_assignment_uniqueness_witness :
    ((run [.heartbeat "p1" .IDLE "X", .heartbeat "p2" .IDLE "X",
           .addJob "j" "X", .requestPrint 1 2]).store.print_requests.map
        PrintRequest.printer_id).Nodup ∧
    ((run [.heartbeat "p1" .IDLE "X", .heartbeat "p2" .IDLE "X",
           .addJob "j" "X", .requestPrint 1 2]).store.print_requests.map
        PrintRequest.print_queue_entry_id).Nodup ∧
    (run [.heartbeat "p1" .IDLE "X", .heartbeat "p2" .IDLE "X",
          .addJob "j" "X", .requestPrint 1 2]).store.print_requests.length = 2 :=
  ⟨(c1_assignment_uniqueness ⟨_, rfl⟩).1,
   (c1_assignment_uniqueness ⟨_, rfl⟩).2,
   by decide⟩

/-- C2: when an IDLE printer's assignment search runs against a store
in which `A` is a matching unassigned queue entry of strictly lowest
position, the search binds the printer to `A` — the resulting store
appends exactly the Assignment `(A, R)`, so `R` is not bound to any
higher-position entry `B`. -/
theorem c2_lowest_position_assignment (s : Store) (R : Printer) (A : PrintQueueEntry)
    (hidle : R.status = PrinterStatus.IDLE)
    (hmem : A ∈ s.print_queue_entries)
    (hnopr : findPrByPqeId s A.id = none)
    (hres : A.resin_code = R.current_resin)
    (hlow : ∀ B ∈ s.print_queue_entries, findPrByPqeId s B.id = none →
      B.resin_code = R.current_resin → B ≠ A → A.position < B.position) :
    assign_pqe_to_printer R s =
      ({ s with print_requests := s.print_requests ++ [⟨s.next_pr_id, A.id, R.id⟩],
                next_pr_id := s.next_pr_id + 1 },
       [⟨"PrintRequest", ChangeEvent.ADDED_OBJECT,
         NotifData.prD ⟨s.next_pr_id, A.id, R.id⟩⟩]) := by
  unfold assign_pqe_to_printer
  rw [hidle]
  simp only [beq_self_eq_true, if_true]
  have hAf : A ∈ s.print_queue_entries.filter
      (fun q => (findPrByPqeId s q.id).isNone && q.resin_code == R.current_resin) :=
    List.mem_filter.2 ⟨hmem, by simp [hnopr, hres]⟩
  have hmin : ∀ B ∈ s.print_queue_entries.filter
      (fun q => (findPrByPqeId s q.id).isNone && q.resin_code == R.current_resin),
      B ≠ A → A.position < B.position := by
    intro B hB hne
    rw [List.mem_filter] at hB
    have hp := hB.2
    simp only [Bool.and_eq_true, beq_iff_eq, Option.isNone_iff_eq_none] at hp
    exact hlow B hB.1 hp.1 hp.2 hne
  rw [firstByPosAsc_eq_of_strict_min hAf hmin]
  simp [addPR]

/-- C2 (witness). -/
theorem c2_lowest_position_assignment_witness :
    assign_pqe_to_printer ⟨"p1", .IDLE, "X"⟩
      ⟨[], [⟨"p1", .IDLE, "X"⟩], [⟨1, 1, 0, "X"⟩, ⟨2, 1, 5, "X"⟩], [], 2, 3, 1⟩ =
      ({ jobs := [], printers := [⟨"p1", .IDLE, "X"⟩],
         print_queue_entries := [⟨1, 1, 0, "X"⟩, ⟨2, 1, 5, "X"⟩],
         print_requests := [⟨1, 1, "p1"⟩],
         next_job_id := 2, next_pqe_id := 3, next_pr_id := 2 },
       [⟨"PrintRequest", ChangeEvent.ADDED_OBJECT, NotifData.prD ⟨1, 1, "p1"⟩⟩]) := by
  have h := c2_lowest_position_assignment
    ⟨[], [⟨"p1", .IDLE, "X"⟩], [⟨1, 1, 0, "X"⟩, ⟨2, 1, 5, "X"⟩], [], 2, 3, 1⟩
    ⟨"p1", .IDLE, "X"⟩ ⟨1, 1, 0, "X"⟩ rfl (by decide) (by decide) rfl (by decide)
  exact h

/-- C6 (counterexample): in the state between a Resource-UPDATED commit
and the subsequent notification flush, an existing Assignment can
reference a printer whose loaded resin no longer matches the queue
entry's resin code — the heartbeat rewrote the printer's resin to "Y"
while Assignment (1, 1, "p1") still binds it to an "X" entry.  The
claim that the material-match invariant holds at such in-between states
is false (the drain restores it). -/
theorem c6_material_mismatch_mid_drain_cex :
    (applyAction (.heartbeat "p1" .IDLE "Y")
        (run [.heartbeat "p1" .IDLE "X", .addJob "j" "X",
              .requestPrint 1 1])).store.print_requests = [⟨1, 1, "p1"⟩] ∧
    findPrinterById (applyAction (.heartbeat "p1" .IDLE "Y")
        (run [.heartbeat "p1" .IDLE "X", .addJob "j" "X",
              .requestPrint 1 1])).store "p1" = some ⟨"p1", PrinterStatus.IDLE, "Y"⟩ ∧
    findPqeById (applyAction (.heartbeat "p1" .IDLE "Y")
        (run [.heartbeat "p1" .IDLE "X", .addJob "j" "X",
              .requestPrint 1 1])).store 1 = some ⟨1, 1, 0, "X"⟩ ∧
    ("Y" : String) ≠ "X" := by
  decide

/-- C6 (amended): at every converged reachable state (each external
action followed by its full notification drain), every Assignment
references an existing printer and an existing queue entry whose resins
match; between an update commit and the drain the invariant can be
temporarily violated (see the counterexample), and the drain's
Resource-UPDATED reaction removes the stale Assignment. -/
theorem c6_material_match_converged_amended {bb : BB} (h : Reachable bb) :
    ∀ r ∈ bb.store.print_requests,
      ∃ p ∈ bb.store.printers, ∃ q ∈ bb.store.print_queue_entries,
        p.id = r.printer_id ∧ q.id = r.print_queue_entry_id ∧
          p.current_resin = q.resin_code := by
  obtain ⟨⟨hwf, hmat⟩, _⟩ := reachable_inv h
  intro r hr
  obtain ⟨p, hp, hpid⟩ := hwf.pr_printer_ref r hr
  obtain ⟨q, hq, hqid⟩ := hwf.pr_pqe_ref r hr
  exact ⟨p, hp, q, hq, hpid, hqid, hmat r hr p hp hpid q hq hqid⟩

/-- C9: when printer `R` holding Assignment `pr` to queue entry `Q` is
removed, the drain's Resource-REMOVED reaction deletes `pr`, so after
convergence no Assignment references `R`; and when another idle printer
with `Q`'s resin and no Assignment exists, the reaction's follow-up
`assign_printer_to_pqe` rebinds `Q` to such a printer. -/
theorem c9_reassignment_on_removal {bb : BB} {R : String} {pr : PrintRequest}
    {Q : PrintQueueEntry}
    (hreach : Reachable bb)
    (hpr : pr ∈ bb.store.print_requests)
    (hprid : pr.printer_id = R)
    (hprq : pr.print_queue_entry_id = Q.id)
    (hQ : Q ∈ bb.store.print_queue_entries) :
    (∀ r ∈ (step (.removePrinter R) bb).store.print_requests, r.printer_id ≠ R) ∧
    ((∃ p2 ∈ bb.store.printers, p2.id ≠ R ∧ p2.status = PrinterStatus.IDLE ∧
        p2.current_resin = Q.resin_code ∧ findPrByPrinterId bb.store p2.id = none) →
      ∃ r ∈ (step (.removePrinter R) bb).store.print_requests,
        r.print_queue_entry_id = Q.id ∧
        ∃ p2 ∈ bb.store.printers, r.printer_id = p2.id ∧ p2.id ≠ R ∧
          p2.status = PrinterStatus.IDLE ∧ p2.current_resin = Q.resin_code) := by
  obtain ⟨⟨hwf, hmat⟩, hnil⟩ := reachable_inv hreach
  obtain ⟨p0, hp0mem, hp0id⟩ := hwf.pr_printer_ref pr hpr
  have hfindPs : (bb.store.printers.find? (fun p => p.id == R)).isSome :=
    List.find?_isSome.2 ⟨p0, hp0mem, by simp [hp0id, hprid]⟩
  obtain ⟨pP, hfindP⟩ := Option.isSome_iff_exists.1 hfindPs
  have hfindP' : findPrinterById bb.store R = some pP := hfindP
  have hPid : pP.id = R := (findPrinterById_eq_some hfindP').2
  rw [step_eq]
  have happ : applyAction (.removePrinter R) bb =
      ⟨{ bb.store with printers := bb.store.printers.eraseP (fun q => q.id == R) },
       [⟨"Printer", .REMOVED_OBJECT, .printerD pP⟩]⟩ := by
    simp [applyAction, remove_printer, hfindP', hnil]
  rw [happ]
  dsimp only
  rw [deliverList_singleton, deliverOne_printer]
  set s' : Store :=
    { bb.store with printers := bb.store.printers.eraseP (fun q => q.id == R) } with hs'
  have honc : on_printer_callback .REMOVED_OBJECT (.printerD pP) s'
      = handle_printer_removal pP s' := rfl
  rw [honc]
  have hfindprS : (s'.print_requests.find? (fun r => r.printer_id == pP.id)).isSome :=
    List.find?_isSome.2 ⟨pr, hpr, by simp [hprid, hPid]⟩
  obtain ⟨pr', hpr'⟩ := Option.isSome_iff_exists.1 hfindprS
  have hpr'' : findPrByPrinterId s' pP.id = some pr' := hpr'
  obtain ⟨hpr'mem, hpr'id⟩ := findPrByPrinterId_eq_some hpr''
  have hpr'eq : pr' = pr :=
    nodup_key_inj hwf.pr_printer_nodup hpr'mem hpr (by rw [hpr'id, hPid, hprid])
  rw [hpr'eq] at hpr''
  unfold handle_printer_removal
  rw [hpr'']
  dsimp only
  have hfindqS : (s'.print_queue_entries.find? (fun x => x.id == pr.print_queue_entry_id)).isSome :=
    List.find?_isSome.2 ⟨Q, hQ, by simp [hprq]⟩
  obtain ⟨Q', hQ'⟩ := Option.isSome_iff_exists.1 hfindqS
  have hQ'' : findPqeById s' pr.print_queue_entry_id = some Q' := hQ'
  obtain ⟨hQ'mem, hQ'id⟩ := findPqeById_eq_some hQ''
  have hQ'eq : Q' = Q := nodup_key_inj hwf.pqes_nodup hQ'mem hQ (by rw [hQ'id, hprq])
  rw [hQ'eq] at hQ''
  rw [hQ'']
  dsimp only
  have hsurv : ∀ r ∈ (removePR pr s').1.print_requests,
      r ∈ bb.store.print_requests ∧ r.printer_id ≠ pr.printer_id ∧
        r.print_queue_entry_id ≠ pr.print_queue_entry_id := fun r hr =>
    erase_found_survivor_ne hwf.pr_ids_nodup hwf.pr_printer_nodup hwf.pr_pqe_nodup hpr hr
  have hprinters1 : (removePR pr s').1.printers
      = bb.store.printers.eraseP (fun q => q.id == R) := rfl
  constructor
  · intro r hr
    rcases assign_printer_to_pqe_cases Q (removePR pr s').1 with heq | ⟨p, hpmem1, _, _, _, heq⟩
    · rw [heq] at hr
      obtain ⟨_, hne, _⟩ := hsurv r hr
      rw [← hprid]
      exact hne
    · rw [heq] at hr
      dsimp only at hr
      rcases List.mem_append.1 hr with h | h
      · obtain ⟨_, hne, _⟩ := hsurv r h
        rw [← hprid]
        exact hne
      · rw [List.mem_singleton.1 h]
        show p.id ≠ R
        rw [hprinters1] at hpmem1
        exact eraseP_beq_ne Printer.id R _ hwf.printers_nodup p hpmem1
  · rintro ⟨p2, hp2mem, hp2ne, hp2idle, hp2res, hp2nopr⟩
    have hp2mem1 : p2 ∈ (removePR pr s').1.printers := by
      rw [hprinters1]
      exact mem_eraseP_of_key_ne Printer.id R _ p2 hp2mem hp2ne
    have hp2nopr1 : findPrByPrinterId (removePR pr s').1 p2.id = none := by
      rw [findPrByPrinterId_eq_none]
      intro r hr
      exact findPrByPrinterId_eq_none.1 hp2nopr r (hsurv r hr).1
    have hfindw : ((removePR pr s').1.printers.find? (fun p =>
        p.current_resin == Q.resin_code && p.status == PrinterStatus.IDLE
          && (findPrByPrinterId (removePR pr s').1 p.id).isNone)).isSome := by
      refine List.find?_isSome.2 ⟨p2, hp2mem1, ?_⟩
      simp [hp2res, hp2idle, hp2nopr1]
    obtain ⟨pw, hpw⟩ := Option.isSome_iff_exists.1 hfindw
    have hpwmem := List.mem_of_find?_eq_some hpw
    have hpwp := List.find?_some hpw
    simp only [Bool.and_eq_true, beq_iff_eq, Option.isNone_iff_eq_none] at hpwp
    have hpwbb : pw ∈ bb.store.printers := by
      rw [hprinters1] at hpwmem
      exact mem_of_mem_eraseP hpwmem
    have hpwne : pw.id ≠ R := by
      rw [hprinters1] at hpwmem
      exact eraseP_beq_ne Printer.id R _ hwf.printers_nodup pw hpwmem
    unfold assign_printer_to_pqe
    rw [hpw]
    refine ⟨⟨(removePR pr s').1.next_pr_id, Q.id, pw.id⟩, ?_, rfl,
      pw, hpwbb, rfl, hpwne, hpwp.1.2, hpwp.1.1⟩
    show _ ∈ (addPR Q.id pw.id (removePR pr s').1).1.print_requests
    simp [addPR]

/-- C9 (witness): printer p1 assigned to the only entry is removed
while idle p2 with the same resin stands by; after the drain the entry
is bound to p2 and nothing references p1. -/
theorem c9_reassignment_on_removal_witness :
    (∀ r ∈ (step (.removePrinter "p1")
        (run [.heartbeat "p1" .IDLE "X", .heartbeat "p2" .IDLE "X",
              .addJob "j" "X", .requestPrint 1 1])).store.print_requests,
      r.printer_id ≠ "p1") ∧
    (∃ r ∈ (step (.removePrinter "p1")
        (run [.heartbeat "p1" .IDLE "X", .heartbeat "p2" .IDLE "X",
              .addJob "j" "X", .requestPrint 1 1])).store.print_requests,
      r.print_queue_entry_id = (⟨1, 1, 0, "X"⟩ : PrintQueueEntry).id ∧
      ∃ p2 ∈ (run [.heartbeat "p1" .IDLE "X", .heartbeat "p2" .IDLE "X",
                   .addJob "j" "X", .requestPrint 1 1]).store.printers,
        r.printer_id = p2.id ∧ p2.id ≠ "p1" ∧
          p2.status = PrinterStatus.IDLE ∧
          p2.current_resin = (⟨1, 1, 0, "X"⟩ : PrintQueueEntry).resin_code) := by
  have h := @c9_reassignment_on_removal
    (run [.heartbeat "p1" .IDLE "X", .heartbeat "p2" .IDLE "X",
          .addJob "j" "X", .requestPrint 1 1])
    "p1" ⟨1, 1, "p1"⟩ ⟨1, 1, 0, "X"⟩
    ⟨_, rfl⟩ (by decide) (by decide) (by decide) (by decide)
  exact ⟨h.1, h.2 (by decide)⟩

/-- C6 (witness). -/
theorem c6_material_match_converged_amended_witness :
    (run [.heartbeat "p1" .IDLE "X", .addJob "j" "X",
          .requestPrint 1 1]).store.print_requests = [⟨1, 1, "p1"⟩] ∧
    (∃ p ∈ (run [.heartbeat "p1" .IDLE "X", .addJob "j" "X",
                 .requestPrint 1 1]).store.printers,
     ∃ q ∈ (run [.heartbeat "p1" .IDLE "X", .addJob "j" "X",
                 .requestPrint 1 1]).store.print_queue_entries,
       p.id = (⟨1, 1, "p1"⟩ : PrintRequest).printer_id ∧
       q.id = (⟨1, 1, "p1"⟩ : PrintRequest).print_queue_entry_id ∧
       p.current_resin = q.resin_code) :=
  ⟨by decide,
   c6_material_match_converged_amended ⟨_, rfl⟩ ⟨1, 1, "p1"⟩ (by decide)⟩

end Cell
